import Mathlib

/-!
# Identicon: a 5x5 block avatar generator

A shallow embedding of `avatar/avatar.go` (package `avatar` of
`github.com/gitzart/identicon`), of `NewAvatar` of `identicon.go` and of
`parseColor` and the colour handling of `main` of `cli/cli.go`, together with
the parts of the Go standard library they call (`crypto/sha1`,
`strings.ToLower`, `strconv.ParseUint`, `image`), followed by theorems about
`mixColor`, `Avatar.init`, `alignCenter`, `fillRect`, `Avatar.Create` and
`parseColor`.

Conventions of the embedding:

* Go `int` is `Int`.  For a machine `Size >= 1` every intermediate value of
  `init`, `alignCenter` and the loops of `Create` lies between `0` and
  `max Size 10`, so no overflow occurs there and unbounded integers agree with
  the machine ones.  The one product that can overflow is the length of the
  pixel buffer, `4 * Size * Size`, which `image.NewNRGBA` checks: see
  `pixelBufferLength` and `Avatar.CreateChecked`, for an `int` of 64 bits.  `/` and
  `%` are the truncating `Int.tdiv` and `Int.tmod`, `>>` is the arithmetic
  (floor) shift, `x<<1` is `x * 2`.
* A `byte` is `Fin 256`; a Go `string` and a `[]byte` are `List Byte`.
* A run-time panic (slice or array index out of range) is `none` of `Option`.
* A Go `error` value is `Option String` (`none` is `nil`).
* An `*image.NRGBA` stores one `NRGBA` colour per pixel (the four bytes of a
  pixel are kept together), so the stride is counted in pixels.  `NewNRGBA` and
  `Avatar.Create` describe the call in which `image.NewNRGBA` returns;
  `Avatar.CreateChecked` adds its panic on a buffer length that overflows
  `int`.  Exhaustion of memory is outside the model.
-/

namespace Identicon

/-- A Go `byte`. -/
abbrev Byte := Fin 256

/-! ## crypto/sha1 -/

namespace sha1

/-- The 32-bit all-ones word. -/
def mask32 : Nat := 2 ^ 32 - 1

/-- Rotate a 32-bit word left by `n` bits (`bits.RotateLeft32`). -/
def rotl (n x : Nat) : Nat := ((x <<< n) ||| (x >>> (32 - n))) % 2 ^ 32

/-- Big-endian 32-bit word of four bytes. -/
def be32 (b0 b1 b2 b3 : Nat) : Nat := b0 <<< 24 ||| b1 <<< 16 ||| b2 <<< 8 ||| b3

/-- Big-endian bytes of a 32-bit word (`binary.BigEndian.PutUint32`). -/
def putUint32 (w : Nat) : List Byte :=
  [Fin.ofNat (w >>> 24), Fin.ofNat (w >>> 16), Fin.ofNat (w >>> 8), Fin.ofNat w]

/-- Big-endian bytes of a 64-bit word (`binary.BigEndian.PutUint64`). -/
def putUint64 (n : Nat) : List Byte :=
  putUint32 ((n >>> 32) % 2 ^ 32) ++ putUint32 (n % 2 ^ 32)

/-- Message padding: the byte 0x80, zero bytes up to length 56 modulo 64, then
the length of the message in bits as a 64-bit big-endian number. -/
def pad (msg : List Byte) : List Byte :=
  let len := msg.length
  let t := if len % 64 < 56 then 56 - len % 64 else 64 + 56 - len % 64
  msg ++ ((0x80 : Byte) :: List.replicate (t - 1) (0 : Byte)) ++ putUint64 ((len <<< 3) % 2 ^ 64)

/-- The first `n` big-endian words of a byte sequence. -/
def words : Nat → List Byte → List Nat
  | 0, _ => []
  | n + 1, b0 :: b1 :: b2 :: b3 :: rest => be32 b0.val b1.val b2.val b3.val :: words n rest
  | _ + 1, _ => []

/-- Message schedule: extend the word list by `n` words,
`w[i] = rotl 1 (w[i-3] xor w[i-8] xor w[i-14] xor w[i-16])`. -/
def schedule : Nat → List Nat → List Nat
  | 0, w => w
  | n + 1, w =>
    let i := w.length
    schedule n (w ++ [rotl 1 (w.getD (i - 3) 0 ^^^ w.getD (i - 8) 0 ^^^
      w.getD (i - 14) 0 ^^^ w.getD (i - 16) 0)])

/-- The five chaining words of SHA-1. -/
structure State where
  h0 : Nat
  h1 : Nat
  h2 : Nat
  h3 : Nat
  h4 : Nat
deriving DecidableEq, Repr

/-- Initial chaining value. -/
def initState : State := ⟨0x67452301, 0xEFCDAB89, 0x98BADCFE, 0x10325476, 0xC3D2E1F0⟩

/-- One of the 80 rounds; `iw` is the round number and the schedule word. -/
def round (s : State) (iw : Nat × Nat) : State :=
  let i := iw.1
  let f := if i < 20 then (s.h1 &&& s.h2) ||| ((s.h1 ^^^ mask32) &&& s.h3)
    else if i < 40 then s.h1 ^^^ s.h2 ^^^ s.h3
    else if i < 60 then ((s.h1 ||| s.h2) &&& s.h3) ||| (s.h1 &&& s.h2)
    else s.h1 ^^^ s.h2 ^^^ s.h3
  let k := if i < 20 then 0x5A827999 else if i < 40 then 0x6ED9EBA1
    else if i < 60 then 0x8F1BBCDC else 0xCA62C1D6
  ⟨(rotl 5 s.h0 + f + s.h4 + iw.2 + k) % 2 ^ 32, s.h0, rotl 30 s.h1, s.h2, s.h3⟩

/-- Compression of one 64-byte block. -/
def block (s : State) (p : List Byte) : State :=
  let w := schedule 64 (words 16 p)
  let t := ((List.range 80).zip w).foldl round s
  ⟨(s.h0 + t.h0) % 2 ^ 32, (s.h1 + t.h1) % 2 ^ 32, (s.h2 + t.h2) % 2 ^ 32,
   (s.h3 + t.h3) % 2 ^ 32, (s.h4 + t.h4) % 2 ^ 32⟩

/-- Compression of `n` consecutive 64-byte blocks. -/
def blocks : Nat → State → List Byte → State
  | 0, s, _ => s
  | n + 1, s, p => blocks n (block s (p.take 64)) (p.drop 64)

/-- The SHA-1 checksum of the data (`sha1.Sum`), 20 bytes. -/
def Sum (data : List Byte) : List Byte :=
  let p := pad data
  let s := blocks (p.length / 64) initState p
  putUint32 s.h0 ++ putUint32 s.h1 ++ putUint32 s.h2 ++ putUint32 s.h3 ++ putUint32 s.h4

end sha1

/-! ## strings.ToLower -/

/-- Lower-casing of a string (`strings.ToLower`).  A string of ASCII bytes only
is mapped byte by byte, `A`..`Z` to `a`..`z`.  A string with a byte at or above
`utf8.RuneSelf` is mapped rune by rune with the Unicode case tables, which are
not part of the embedding: `unicodeLower` stands for `Map(unicode.ToLower, s)`. -/
def ToLower (unicodeLower : List Byte → List Byte) (s : List Byte) : List Byte :=
  if s.all (fun c => c.val < 0x80) then
    s.map (fun c => if 0x41 ≤ c.val ∧ c.val ≤ 0x5a then c + 0x20 else c)
  else unicodeLower s

/-! ## image and image/color -/

/-- An `image/color.NRGBA` colour. -/
structure NRGBA where
  R : Byte
  G : Byte
  B : Byte
  A : Byte
deriving DecidableEq, Repr

/-- An `image.Point`. -/
structure Point where
  X : Int
  Y : Int
deriving DecidableEq, Repr

/-- An `image.Rectangle`: the points with `Min.X <= x < Max.X`, `Min.Y <= y < Max.Y`. -/
structure Rectangle where
  Min : Point
  Max : Point
deriving DecidableEq, Repr

/-- The well-formed rectangle of two corners (`image.Rect`): the coordinates
are swapped where the minimum exceeds the maximum. -/
def Rect (x0 y0 x1 y1 : Int) : Rectangle :=
  let (x0, x1) := if x0 > x1 then (x1, x0) else (x0, x1)
  let (y0, y1) := if y0 > y1 then (y1, y0) else (y0, y1)
  ⟨⟨x0, y0⟩, ⟨x1, y1⟩⟩

/-- Width of a rectangle (`Rectangle.Dx`). -/
def Rectangle.Dx (r : Rectangle) : Int := r.Max.X - r.Min.X

/-- Height of a rectangle (`Rectangle.Dy`). -/
def Rectangle.Dy (r : Rectangle) : Int := r.Max.Y - r.Min.Y

/-- Whether a point lies in a rectangle (`Point.In`). -/
def Point.In (p : Point) (r : Rectangle) : Bool :=
  decide (r.Min.X ≤ p.X) && decide (p.X < r.Max.X) &&
  decide (r.Min.Y ≤ p.Y) && decide (p.Y < r.Max.Y)

/-- An in-memory image of `NRGBA` pixels (`image.NRGBA`), one colour per pixel,
row after row. -/
structure Image where
  Pix : List NRGBA
  Stride : Int
  Rect : Rectangle
deriving DecidableEq, Repr

/-- A new image with the given bounds, every pixel the zero colour: what
`image.NewNRGBA` returns when it returns, that is when `pixelBufferLength`
does not panic. -/
def NewNRGBA (r : Rectangle) : Image :=
  ⟨List.replicate (r.Dx * r.Dy).toNat ⟨0, 0, 0, 0⟩, r.Dx, r⟩

/-- The largest value of the type `int`, 64 bits wide. -/
def maxInt : Int := 2 ^ 63 - 1

/-- Returns `x * y * z`, unless at least one argument is negative or the
computation overflows the `int` type, in which case it returns -1
(`image.mul3NonNeg`; the two products are those of `bits.Mul64` on 64-bit
words, whose high word must be 0). -/
def mul3NonNeg (x y z : Int) : Int :=
  if x < 0 ∨ y < 0 ∨ z < 0 then -1
  else if x * y ≥ 2 ^ 64 then -1 -- hi != 0
  else if x * y * z ≥ 2 ^ 64 then -1 -- hi != 0
  else if x * y * z > maxInt then -1 -- int(lo) < 0
  else x * y * z

/-- Length of the pixel buffer of an image with the given bounds
(`image.pixelBufferLength`); it panics when the rectangle has huge or negative
dimensions. -/
def pixelBufferLength (bytesPerPixel : Int) (r : Rectangle) : Option Int :=
  let totalLength := mul3NonNeg bytesPerPixel r.Dx r.Dy
  if totalLength < 0 then none else some totalLength

/-- Index in `Pix` of the pixel at `(x, y)` (`NRGBA.PixOffset`). -/
def Image.PixOffset (m : Image) (x y : Int) : Int :=
  (y - m.Rect.Min.Y) * m.Stride + (x - m.Rect.Min.X)

/-- Write one pixel; a point outside the bounds is ignored (`NRGBA.SetNRGBA`). -/
def Image.SetNRGBA (m : Image) (x y : Int) (c : NRGBA) : Image :=
  if !(Point.In ⟨x, y⟩ m.Rect) then m
  else { m with Pix := m.Pix.set (m.PixOffset x y).toNat c }

/-- Read one pixel; a point outside the bounds reads as the zero colour
(`NRGBA.NRGBAAt`). -/
def Image.NRGBAAt (m : Image) (x y : Int) : NRGBA :=
  if !(Point.In ⟨x, y⟩ m.Rect) then ⟨0, 0, 0, 0⟩
  else m.Pix.getD (m.PixOffset x y).toNat ⟨0, 0, 0, 0⟩

/-- Well-formedness of an image, as established by `image.NewNRGBA`: the stride
is the width and there is one colour per pixel. -/
def Image.WF (m : Image) : Prop :=
  m.Stride = m.Rect.Dx ∧ m.Pix.length = (m.Rect.Dx * m.Rect.Dy).toNat

/-! ## package avatar -/

/-- Number of blocks per row and per column. -/
abbrev nblock : Nat := 5

/-- The default image background colour. -/
def DefaultBG : NRGBA := ⟨0xed, 0xed, 0xed, 0xff⟩

/-- The type `[nblock][nblock]bool`. -/
structure palette where
  cell : Fin nblock → Fin nblock → Bool

/-- The zero value of a palette. -/
def palette.zero : palette := ⟨fun _ _ => false⟩

/-- Read `p[i][j]`; an index out of range panics. -/
def palette.get? (p : palette) (i j : Nat) : Option Bool :=
  if h : i < nblock ∧ j < nblock then some (p.cell ⟨i, h.1⟩ ⟨j, h.2⟩) else none

/-- Assign `p[i][j] = v`; an index out of range panics. -/
def palette.set? (p : palette) (i j : Nat) (v : Bool) : Option palette :=
  if i < nblock ∧ j < nblock then
    some ⟨fun r c => if r.val = i ∧ c.val = j then v else p.cell r c⟩
  else none

/-- The properties to make an avatar image. -/
structure Avatar where
  Text : List Byte
  Size : Int
  Padding : Int
  BGColor : NRGBA
  Color : NRGBA
  palette : palette

/-- The slice expression `s[lo:]`; it panics when `lo` exceeds the length. -/
def sliceFrom {α : Type} (s : List α) (lo : Nat) : Option (List α) :=
  if lo ≤ s.length then some (s.drop lo) else none

/-- The loop `for v := lo; v < hi; v++ { s = body v s }`. -/
def forRange {σ : Type} (lo hi : Int) (body : Int → σ → σ) (s : σ) : σ :=
  (List.range (hi - lo).toNat).foldl (fun s (k : Nat) => body (lo + (k : Int)) s) s

/-- Makes a symmetrical colour palette but with boolean values.  The state of
the two loops is the palette `p` and the read position `z`. -/
def mixColor (recipe : List Byte) : Option palette :=
  let l := nblock
  let mid := (l >>> 1) + 1
  ((List.range l).foldlM (fun (st : palette × Nat) i =>
    (List.range mid).foldlM (fun (st : palette × Nat) j => do
      let b ← recipe[st.2]?
      let p ← st.1.set? i j (b.val % 2 == 0)
      -- Mirror the bool to the other end.
      let v ← p.get? i j
      let p ← p.set? i (l - (j + 1)) v
      pure (p, st.2 + 1)) st) (palette.zero, 0)).map Prod.fst

/-- Verifies the avatar properties and initialises them.  The result is the
avatar after the call and the returned error. -/
def Avatar.init (unicodeLower : List Byte → List Byte) (a : Avatar) :
    Option (Avatar × Option String) :=
  if a.Size < 1 then some (a, some "invalid Avatar.Size")
  else do
    let a := if a.Padding < 0 then { a with Padding := 0 }
      else if a.Padding > 10 then { a with Padding := 10 } else a
    let a := { a with Padding := a.Padding * Int.tdiv a.Size 100 }
    let sum := sha1.Sum (ToLower unicodeLower a.Text)
    let zc : NRGBA := ⟨0, 0, 0, 0⟩ -- zero value color
    let a := if a.BGColor = zc then { a with BGColor := DefaultBG } else a
    let a ← if a.Color = zc then do
        let r ← sum[0]?
        let g ← sum[1]?
        let b ← sum[2]?
        pure { a with Color := ⟨r, g, b, 0xff⟩ }
      else pure a
    let recipe ← sliceFrom sum 3
    let p ← mixColor recipe
    pure ({ a with palette := p }, none)

/-- Finds the centre position of the image. -/
def alignCenter (size padding : Int) : Rectangle :=
  let rem := Int.tmod (size - padding * 2) nblock -- padding<<1 is padding * 2
  let min := padding + (rem >>> (1 : Nat))
  let max := size - min
  Rect min min max max

/-- Colours a certain area of the image. -/
def fillRect (m : Image) (r : Rectangle) (c : NRGBA) : Image :=
  forRange r.Min.Y r.Max.Y (fun y m =>
    forRange r.Min.X r.Max.X (fun x m => m.SetNRGBA x y c) m) m

/-- Performs the algorithm to make an avatar image.  The result is the avatar
after the call, the returned image (`none` is `nil`) and the returned error.
The state of the outer loop is the image and `vt`, that of the inner loop the
image and `hr`. -/
def Avatar.Create (unicodeLower : List Byte → List Byte) (a : Avatar) :
    Option (Avatar × Option Image × Option String) :=
  match a.init unicodeLower with
  | none => none
  | some (a, some err) => some (a, none, some err)
  | some (a, none) =>
    let r := Rect 0 0 a.Size a.Size
    let m := NewNRGBA r
    let m := fillRect m r a.BGColor -- set background
    -- Set avatar
    let avatarRect := alignCenter a.Size a.Padding
    let blockSize := Int.tdiv avatarRect.Dx nblock
    let vt := avatarRect.Min.Y
    ((List.range nblock).foldlM (fun (st : Image × Int) i => do
      let hr := avatarRect.Min.X
      let st2 ← (List.range nblock).foldlM (fun (st2 : Image × Int) j => do
        let cell ← a.palette.get? i j
        let m := if cell then
            fillRect st2.1 (Rect st2.2 st.2 (st2.2 + blockSize) (st.2 + blockSize)) a.Color
          else st2.1
        pure (m, st2.2 + blockSize)) (st.1, hr)
      pure (st2.1, st.2 + blockSize)) (m, vt)).map (fun (st : Image × Int) => (a, some st.1, none))



/-- The method `Create` together with the panic of `image.NewNRGBA`: after a
successful `init` the call `image.NewNRGBA(r)` computes
`pixelBufferLength(4, r, "NRGBA")` and panics when the length overflows `int`;
otherwise `Create` goes on as `Avatar.Create` describes it. -/
def Avatar.CreateChecked (unicodeLower : List Byte → List Byte) (a : Avatar) :
    Option (Avatar × Option Image × Option String) :=
  match a.init unicodeLower with
  | none => none
  | some (a', some err) => some (a', none, some err)
  | some (a', none) =>
    match pixelBufferLength 4 (Rect 0 0 a'.Size a'.Size) with
    | none => none
    | some _ => a.Create unicodeLower

/-! ## strconv.ParseUint -/

/-- The digit that a byte stands for in `strconv.ParseUint`: `0`..`9` are 0..9
and a letter, in either case (`lower(c)` is `c | 0x20`), is 10..35; any other
byte is a syntax error. -/
def ParseUint.digit (c : Byte) : Option Nat :=
  let lower := c.val ||| 0x20
  if 0x30 ≤ c.val ∧ c.val ≤ 0x39 then some (c.val - 0x30)
  else if 0x61 ≤ lower ∧ lower ≤ 0x7a then some (lower - 0x61 + 10)
  else none

/-- The digit loop of `strconv.ParseUint` for a base between 2 and 36 given
explicitly (no prefix, no underscores); `n` is the value read so far.  The
result is the value and the error; the error text is abbreviated to its kind
(the library quotes the input in it). -/
def ParseUint.loop (base bitSize : Nat) : List Byte → Nat → Nat × Option String
  | [], n => (n, none)
  | c :: rest, n =>
    let cutoff := (2 ^ 64 - 1) / base + 1
    let maxVal := 2 ^ bitSize - 1
    match ParseUint.digit c with
    | none => (0, some "invalid syntax")
    | some d =>
      if d ≥ base then (0, some "invalid syntax")
      else if n ≥ cutoff then (maxVal, some "value out of range") -- n*base overflows
      else
        let n1 := n * base + d
        if n1 ≥ 2 ^ 64 ∨ n1 > maxVal then (maxVal, some "value out of range") -- n+d overflows
        else ParseUint.loop base bitSize rest n1

/-- The unsigned number written in `s` (`strconv.ParseUint`), for a base between
2 and 36 and a bit size between 1 and 64. -/
def ParseUint (s : List Byte) (base bitSize : Nat) : Nat × Option String :=
  if s = [] then (0, some "invalid syntax")
  else ParseUint.loop base bitSize s 0

/-! ## package identicon and the command line (cli/cli.go) -/

/-- The slice expression `s[lo:hi]`; it panics when the bounds are out of range. -/
def slice {α : Type} (s : List α) (lo hi : Nat) : Option (List α) :=
  if lo ≤ hi ∧ hi ≤ s.length then some ((s.take hi).drop lo) else none

/-- Returns a new pointer avatar (`identicon.NewAvatar`). -/
def NewAvatar (text : List Byte) (size padding : Int) : Avatar :=
  { Text := text, Size := size, Padding := padding, BGColor := ⟨0, 0, 0, 0⟩,
    Color := ⟨0, 0, 0, 0⟩, palette := palette.zero }

/-- The colour written as six hexadecimal digits (`parseColor` of the command
line).  The loop `for i := 0; i < 6; i += 2` runs over `i = 0, 2, 4`; its state
is the slice `ca` and the error with which the function has returned, if any. -/
def parseColor (c : List Byte) : Option (NRGBA × Option String) :=
  let zc : NRGBA := ⟨0, 0, 0, 0⟩ -- zero value color
  if c = [] then some (zc, none)
  else if c.length ≠ 6 then some (zc, some "color must have 6 digits")
  else do
    let st ← [0, 2, 4].foldlM (fun (st : List Byte × Option String) i =>
      match st.2 with
      | some _ => pure st
      | none => do
        let s ← slice c i (i + 2)
        match ParseUint s 16 8 with
        | (_, some err) => pure (st.1, some err)
        | (v, none) => pure (st.1 ++ [Fin.ofNat v], none)) ([], none)
    match st.2 with
    | some err => pure (zc, some err)
    | none => do
      let r ← st.1[0]?
      let g ← st.1[1]?
      let b ← st.1[2]?
      pure (⟨r, g, b, 255⟩, none)

/-- The outcome of the command line up to the call of `Create`: either the
program has printed a message and exited with status 1, or it goes on to encode
the image that `Create` returned for the avatar. -/
inductive Outcome where
  | exit (message : String)
  | created (a : Avatar) (m : Image)

/-- The function `main` of the command line from the check of the text to the
call of `Create`, for an empty `-d` path; the arguments are the text and the
values of the flags `-s`, `-p`, `-b` and `-c`.  `failCheck` prints the error
and exits. -/
def main (unicodeLower : List Byte → List Byte) (text : List Byte) (size padding : Int)
    (bgColor colorVar : List Byte) : Option Outcome :=
  if text = [] then some (Outcome.exit "text is required. See help (-h)")
  else do
    -- Parse colors
    let (bg, err) ← parseColor bgColor
    match err with
    | some e => pure (Outcome.exit e)
    | none =>
      let (c, err) ← parseColor colorVar
      match err with
      | some e => pure (Outcome.exit e)
      | none =>
        let a := NewAvatar text size padding
        let a := { a with BGColor := bg }
        let a := { a with Color := c }
        let (a, m, err) ← a.Create unicodeLower
        match m, err with
        | _, some e => pure (Outcome.exit e)
        | some m, none => pure (Outcome.created a m)
        | none, none => none

/-- Specification of a hexadecimal digit, in the words of the claim on
`parseColor`: the value of `0`..`9`, of `a`..`f` and of `A`..`F`, and `none` for
every other byte. -/
def hexValue (b : Byte) : Option Nat :=
  if 0x30 ≤ b.val ∧ b.val ≤ 0x39 then some (b.val - 0x30)
  else if 0x61 ≤ b.val ∧ b.val ≤ 0x66 then some (b.val - 0x61 + 10)
  else if 0x41 ≤ b.val ∧ b.val ≤ 0x46 then some (b.val - 0x41 + 10)
  else none

/-! ## Test vectors of the library model -/

set_option maxRecDepth 100000 in
/-- SHA-1 of the empty string (FIPS 180 test vector da39a3ee...). -/
theorem sha1_Sum_nil : sha1.Sum [] =
    [0xda, 0x39, 0xa3, 0xee, 0x5e, 0x6b, 0x4b, 0x0d, 0x32, 0x55,
     0xbf, 0xef, 0x95, 0x60, 0x18, 0x90, 0xaf, 0xd8, 0x07, 0x09] := by
  decide

set_option maxRecDepth 100000 in
/-- SHA-1 of "abc" (FIPS 180 test vector a9993e36...). -/
theorem sha1_Sum_abc : sha1.Sum [0x61, 0x62, 0x63] =
    [0xa9, 0x99, 0x3e, 0x36, 0x47, 0x06, 0x81, 0x6a, 0xba, 0x3e,
     0x25, 0x71, 0x78, 0x50, 0xc2, 0x6c, 0x9c, 0xd0, 0xd8, 0x9d] := by
  decide

/-- Lower-casing of "Alice" is "alice", whatever the Unicode tables. -/
theorem ToLower_Alice (ul : List Byte → List Byte) :
    ToLower ul [0x41, 0x6c, 0x69, 0x63, 0x65] = [0x61, 0x6c, 0x69, 0x63, 0x65] := by
  rfl

/-! ## Loop rules -/

/-- Invariant rule for a counted loop whose body may panic. -/
theorem foldlM_range_inv {σ : Type} (f : σ → Nat → Option σ) (Inv : Nat → σ → Prop)
    (n : Nat) (s0 : σ) (h0 : Inv 0 s0)
    (step : ∀ i s, i < n → Inv i s → ∃ s', f s i = some s' ∧ Inv (i + 1) s') :
    ∃ s, (List.range n).foldlM f s0 = some s ∧ Inv n s := by
  induction n with
  | zero => exact ⟨s0, by simp, h0⟩
  | succ k ih =>
    obtain ⟨s, hs, hinv⟩ := ih (fun i s hi h => step i s (Nat.lt_succ_of_lt hi) h)
    obtain ⟨s', hs', hinv'⟩ := step k s (Nat.lt_succ_self k) hinv
    refine ⟨s', ?_, hinv'⟩
    rw [List.range_succ, List.foldlM_append, hs]
    simp [hs']

/-- Invariant rule for a counted loop. -/
theorem foldl_range_inv {σ : Type} (f : σ → Nat → σ) (Inv : Nat → σ → Prop)
    (n : Nat) (s0 : σ) (h0 : Inv 0 s0)
    (step : ∀ i s, i < n → Inv i s → Inv (i + 1) (f s i)) :
    Inv n ((List.range n).foldl f s0) := by
  induction n with
  | zero => simpa using h0
  | succ k ih =>
    rw [List.range_succ, List.foldl_append]
    simpa using step k _ (Nat.lt_succ_self k)
      (ih (fun i s hi h => step i s (Nat.lt_succ_of_lt hi) h))

/-- Invariant rule for `forRange`: the invariant holds at `max lo hi` after the loop. -/
theorem forRange_inv {σ : Type} (lo hi : Int) (body : Int → σ → σ) (Inv : Int → σ → Prop)
    (s0 : σ) (h0 : Inv lo s0)
    (step : ∀ v s, lo ≤ v → v < hi → Inv v s → Inv (v + 1) (body v s)) :
    Inv (max lo hi) (forRange lo hi body s0) := by
  have key := foldl_range_inv (fun s (k : Nat) => body (lo + (k : Int)) s)
    (fun k s => Inv (lo + (k : Int)) s) (hi - lo).toNat s0 (by simpa using h0)
    (fun i s hi' h => by
      have h1 : (i : Int) < hi - lo := by
        have := Int.lt_toNat.mp hi'
        exact this
      have := step (lo + (i : Int)) s (by omega) (by omega) h
      simpa [add_assoc] using this)
  have hmax : lo + ((hi - lo).toNat : Int) = max lo hi := by
    rcases le_total lo hi with h | h
    · rw [Int.toNat_of_nonneg (by omega), max_eq_right h]; omega
    · rw [Int.toNat_eq_zero.mpr (by omega), max_eq_left h]; simp
  rw [← hmax]
  unfold forRange
  exact key

/-! ## The palette -/

/-- The palette cell `(r, c)` as a function of the recipe: the parity of byte
`3 * r + min c (4 - c)`. -/
theorem mixColor_eq (recipe : List Byte) (h : 15 ≤ recipe.length) :
    mixColor recipe = some ⟨fun r c =>
      (recipe.getD (3 * r.val + min c.val (4 - c.val)) 0).val % 2 == 0⟩ := by
  have hn : nblock = 5 := rfl
  have hmid : (nblock >>> 1) + 1 = 3 := rfl
  have outer := foldlM_range_inv
    (fun (st : palette × Nat) i =>
      (List.range ((nblock >>> 1) + 1)).foldlM (fun (st : palette × Nat) j => do
        let b ← recipe[st.2]?
        let p ← st.1.set? i j (b.val % 2 == 0)
        let v ← p.get? i j
        let p ← p.set? i (nblock - (j + 1)) v
        pure (p, st.2 + 1)) st)
    (fun i st => st.2 = 3 * i ∧ ∀ r c : Fin nblock, r.val < i →
      st.1.cell r c = ((recipe.getD (3 * r.val + min c.val (4 - c.val)) 0).val % 2 == 0))
    nblock (palette.zero, 0) (by simp) (by
      intro i st hi ⟨hz, hcells⟩
      have inner := foldlM_range_inv
        (fun (st : palette × Nat) j => do
          let b ← recipe[st.2]?
          let p ← st.1.set? i j (b.val % 2 == 0)
          let v ← p.get? i j
          let p ← p.set? i (nblock - (j + 1)) v
          pure (p, st.2 + 1))
        (fun j st => st.2 = 3 * i + j ∧ ∀ r c : Fin nblock,
          (r.val < i ∨ (r.val = i ∧ (c.val < j ∨ 4 - j < c.val))) →
          st.1.cell r c = ((recipe.getD (3 * r.val + min c.val (4 - c.val)) 0).val % 2 == 0))
        ((nblock >>> 1) + 1) st
        ⟨by simpa using hz, fun r c hrc => hcells r c (by
          rcases hrc with h1 | ⟨_, h2 | h2⟩
          · exact h1
          · omega
          · have := c.isLt; omega)⟩
        (by
          intro j st2 hj ⟨hz2, hc2⟩
          have hj3 : j < 3 := hmid ▸ hj
          have hlt : st2.2 < recipe.length := by omega
          refine ⟨(⟨fun r c => if r.val = i ∧ c.val = 4 - j then
              (recipe[st2.2].val % 2 == 0) else
              if r.val = i ∧ c.val = j then (recipe[st2.2].val % 2 == 0) else st2.1.cell r c⟩,
              st2.2 + 1), ?_, ?_, ?_⟩
          · have h5 : i < 5 ∧ j < 5 := ⟨hi, by omega⟩
            have h6 : i < 5 ∧ 5 - (j + 1) < 5 := ⟨hi, by omega⟩
            have h7 : 5 - (j + 1) = 4 - j := by omega
            have h8 : 4 - j < 5 := by omega
            simp [List.getElem?_eq_getElem hlt, palette.set?, palette.get?, h5, h6, h7, h8]
          · simp [hz2]; omega
          · intro r c hrc
            have hr := r.isLt
            have hc := c.isLt
            simp only
            by_cases h1 : r.val = i ∧ c.val = 4 - j
            · have hidx : 3 * r.val + min c.val (4 - c.val) = st2.2 := by omega
              rw [if_pos h1, hidx, List.getD_eq_getElem _ _ hlt]
            · rw [if_neg h1]
              by_cases h2 : r.val = i ∧ c.val = j
              · have hidx : 3 * r.val + min c.val (4 - c.val) = st2.2 := by omega
                rw [if_pos h2, hidx, List.getD_eq_getElem _ _ hlt]
              · rw [if_neg h2]
                exact hc2 r c (by omega))
      obtain ⟨s, hs, hz3, hc3⟩ := inner
      refine ⟨s, hs, ?_, ?_⟩
      · rw [hmid] at hz3; omega
      · intro r c hr
        have hc := c.isLt
        exact hc3 r c (by
          rw [hmid]
          omega))
  obtain ⟨s, hs, _, hcells⟩ := outer
  simp only [mixColor]
  rw [hs]
  simp only [Option.map_some', Option.some.injEq]
  have : s.1 = ⟨s.1.cell⟩ := rfl
  rw [this]
  congr 1
  funext r c
  exact hcells r c r.isLt



/-! ## Images -/

theorem Point.In_iff (x y : Int) (r : Rectangle) :
    Point.In ⟨x, y⟩ r = true ↔ r.Min.X ≤ x ∧ x < r.Max.X ∧ r.Min.Y ≤ y ∧ y < r.Max.Y := by
  simp [Point.In, and_assoc]

theorem NewNRGBA_WF (r : Rectangle) : (NewNRGBA r).WF := by
  simp [Image.WF, NewNRGBA]

theorem NewNRGBA_at (r : Rectangle) (x y : Int) : (NewNRGBA r).NRGBAAt x y = ⟨0, 0, 0, 0⟩ := by
  unfold Image.NRGBAAt NewNRGBA
  split
  · rfl
  · simp only [List.getD_eq_getElem?_getD, List.getElem?_replicate]
    split <;> rfl

/-- Offsets of in-bounds pixels are in range and distinct for distinct pixels. -/
theorem offset_facts (w h a b a' b' : Int) (ha : 0 ≤ a) (ha' : a < h) (hb : 0 ≤ b) (hb' : b < w)
    (ha2 : 0 ≤ a') (hb2 : 0 ≤ b') (hb2' : b' < w) :
    0 ≤ a * w + b ∧ a * w + b < w * h ∧ (a * w + b = a' * w + b' → a = a' ∧ b = b') := by
  have hw : 0 < w := by omega
  refine ⟨by positivity, by nlinarith, fun heq => ?_⟩
  have h1 : a = a' := by
    rcases lt_trichotomy a a' with hlt | heq' | hgt
    · exfalso
      have : (a + 1) * w ≤ a' * w := Int.mul_le_mul_of_nonneg_right (by omega) (by omega)
      nlinarith
    · exact heq'
    · exfalso
      have : (a' + 1) * w ≤ a * w := Int.mul_le_mul_of_nonneg_right (by omega) (by omega)
      nlinarith
  subst h1
  exact ⟨rfl, by omega⟩

theorem SetNRGBA_Rect (m : Image) (x y : Int) (c : NRGBA) : (m.SetNRGBA x y c).Rect = m.Rect := by
  unfold Image.SetNRGBA
  split <;> rfl

theorem SetNRGBA_WF (m : Image) (x y : Int) (c : NRGBA) (hm : m.WF) : (m.SetNRGBA x y c).WF := by
  unfold Image.SetNRGBA
  split
  · exact hm
  · simpa [Image.WF] using hm

theorem SetNRGBA_at (m : Image) (x y : Int) (c : NRGBA) (hm : m.WF) (x' y' : Int) :
    (m.SetNRGBA x y c).NRGBAAt x' y' =
      if x' = x ∧ y' = y ∧ Point.In ⟨x, y⟩ m.Rect = true then c else m.NRGBAAt x' y' := by
  obtain ⟨hs, hl⟩ := hm
  by_cases hin : Point.In ⟨x, y⟩ m.Rect = true
  · have hin1 := (Point.In_iff _ _ _).mp hin
    by_cases hin' : Point.In ⟨x', y'⟩ m.Rect = true
    · have hin2 := (Point.In_iff _ _ _).mp hin'
      have f := offset_facts m.Rect.Dx m.Rect.Dy (y - m.Rect.Min.Y) (x - m.Rect.Min.X)
        (y' - m.Rect.Min.Y) (x' - m.Rect.Min.X) (by omega) (by unfold Rectangle.Dy; omega)
        (by omega) (by unfold Rectangle.Dx; omega) (by omega) (by omega)
        (by unfold Rectangle.Dx; omega)
      obtain ⟨f1, f2, f3⟩ := f
      simp only [Image.SetNRGBA, Image.NRGBAAt, hin, hin', Bool.not_true, Bool.false_eq_true,
        if_false, Image.PixOffset, hs, and_true]
      rw [List.getD_eq_getElem?_getD, List.getElem?_set]
      have hlen : ((y - m.Rect.Min.Y) * m.Rect.Dx + (x - m.Rect.Min.X)).toNat < m.Pix.length := by
        rw [hl]
        exact (Int.toNat_lt_toNat (by omega)).mpr f2
      by_cases hxy : x' = x ∧ y' = y
      · obtain ⟨rfl, rfl⟩ := hxy
        simp [hlen]
      · rw [if_neg hxy, if_neg, ← List.getD_eq_getElem?_getD]
        intro heq
        apply hxy
        have h3 := f3 (by
          have g1 : 0 ≤ (y' - m.Rect.Min.Y) * m.Rect.Dx + (x' - m.Rect.Min.X) := by
            have : 0 ≤ (y' - m.Rect.Min.Y) * m.Rect.Dx :=
              Int.mul_nonneg (by omega) (by unfold Rectangle.Dx; omega)
            omega
          have := congrArg (fun n : Nat => (n : Int)) heq
          simp only [Int.toNat_of_nonneg f1, Int.toNat_of_nonneg g1] at this
          exact this)
        omega
    · have hne : ¬(x' = x ∧ y' = y) := by
        rintro ⟨rfl, rfl⟩
        exact hin' hin
      simp [Image.SetNRGBA, Image.NRGBAAt, hin, hin', hne]
  · simp [Image.SetNRGBA, hin]



/-- One row of `fillRect`. -/
theorem fillRow_spec (m : Image) (lo hi y : Int) (c : NRGBA) (hm : m.WF) :
    (forRange lo hi (fun x m => m.SetNRGBA x y c) m).WF ∧
    (forRange lo hi (fun x m => m.SetNRGBA x y c) m).Rect = m.Rect ∧
    ∀ x' y', (forRange lo hi (fun x m => m.SetNRGBA x y c) m).NRGBAAt x' y' =
      if y' = y ∧ lo ≤ x' ∧ x' < hi ∧ Point.In ⟨x', y'⟩ m.Rect = true then c
      else m.NRGBAAt x' y' := by
  have key := forRange_inv lo hi (fun x m => m.SetNRGBA x y c)
    (fun v m' => m'.WF ∧ m'.Rect = m.Rect ∧ ∀ x' y', m'.NRGBAAt x' y' =
      if y' = y ∧ lo ≤ x' ∧ x' < v ∧ Point.In ⟨x', y'⟩ m.Rect = true then c
      else m.NRGBAAt x' y') m
    ⟨hm, rfl, fun x' y' => by
      rw [if_neg]
      omega⟩
    (by
      rintro v m' hv1 hv2 ⟨hwf, hrect, hat⟩
      refine ⟨SetNRGBA_WF _ _ _ _ hwf, by rw [SetNRGBA_Rect, hrect], fun x' y' => ?_⟩
      rw [SetNRGBA_at _ _ _ _ hwf, hat, hrect]
      by_cases h1 : x' = v ∧ y' = y ∧ Point.In ⟨v, y⟩ m.Rect = true
      · obtain ⟨rfl, rfl, h3⟩ := h1
        rw [if_pos ⟨rfl, rfl, h3⟩, if_pos ⟨rfl, hv1, by omega, h3⟩]
      · rw [if_neg h1]
        by_cases h2 : y' = y ∧ lo ≤ x' ∧ x' < v ∧ Point.In ⟨x', y'⟩ m.Rect = true
        · rw [if_pos h2, if_pos ⟨h2.1, h2.2.1, by omega, h2.2.2.2⟩]
        · rw [if_neg h2, if_neg]
          rintro ⟨rfl, h4, h5, h6⟩
          by_cases h7 : x' = v
          · subst h7
            exact h1 ⟨rfl, rfl, h6⟩
          · exact h2 ⟨rfl, h4, by omega, h6⟩)
  obtain ⟨k1, k2, k3⟩ := key
  refine ⟨k1, k2, fun x' y' => ?_⟩
  rw [k3]
  congr 1
  apply propext
  constructor
  · rintro ⟨h1, h2, h3, h4⟩
    exact ⟨h1, h2, by
      rcases le_total lo hi with h | h
      · rwa [max_eq_right h] at h3
      · rw [max_eq_left h] at h3
        omega, h4⟩
  · rintro ⟨h1, h2, h3, h4⟩
    exact ⟨h1, h2, lt_of_lt_of_le h3 (le_max_right _ _), h4⟩

/-- Pixels of an image after `fillRect`: the points of the rectangle that lie
inside the image have the new colour, every other point is unchanged. -/
theorem fillRect_spec (m : Image) (r : Rectangle) (c : NRGBA) (hm : m.WF) :
    (fillRect m r c).WF ∧ (fillRect m r c).Rect = m.Rect ∧
    ∀ x y, (fillRect m r c).NRGBAAt x y =
      if Point.In ⟨x, y⟩ r = true ∧ Point.In ⟨x, y⟩ m.Rect = true then c
      else m.NRGBAAt x y := by
  have key := forRange_inv r.Min.Y r.Max.Y
    (fun y m => forRange r.Min.X r.Max.X (fun x m => m.SetNRGBA x y c) m)
    (fun v m' => m'.WF ∧ m'.Rect = m.Rect ∧ ∀ x' y', m'.NRGBAAt x' y' =
      if (r.Min.Y ≤ y' ∧ y' < v) ∧ (r.Min.X ≤ x' ∧ x' < r.Max.X) ∧
        Point.In ⟨x', y'⟩ m.Rect = true then c
      else m.NRGBAAt x' y') m
    ⟨hm, rfl, fun x' y' => by
      rw [if_neg]
      omega⟩
    (by
      rintro v m' hv1 hv2 ⟨hwf, hrect, hat⟩
      obtain ⟨r1, r2, r3⟩ := fillRow_spec m' r.Min.X r.Max.X v c hwf
      refine ⟨r1, by rw [r2, hrect], fun x' y' => ?_⟩
      rw [r3, hat, hrect]
      by_cases h1 : y' = v ∧ r.Min.X ≤ x' ∧ x' < r.Max.X ∧ Point.In ⟨x', y'⟩ m.Rect = true
      · rw [if_pos h1, if_pos ⟨⟨by omega, by omega⟩, ⟨h1.2.1, h1.2.2.1⟩, h1.2.2.2⟩]
      · rw [if_neg h1]
        by_cases h2 : (r.Min.Y ≤ y' ∧ y' < v) ∧ (r.Min.X ≤ x' ∧ x' < r.Max.X) ∧
            Point.In ⟨x', y'⟩ m.Rect = true
        · rw [if_pos h2, if_pos ⟨⟨h2.1.1, by omega⟩, h2.2⟩]
        · rw [if_neg h2, if_neg]
          rintro ⟨⟨h3, h4⟩, ⟨h5, h6⟩, h7⟩
          by_cases h8 : y' = v
          · exact h1 ⟨h8, h5, h6, h7⟩
          · exact h2 ⟨⟨h3, by omega⟩, ⟨h5, h6⟩, h7⟩)
  obtain ⟨k1, k2, k3⟩ := key
  refine ⟨k1, k2, fun x y => ?_⟩
  have e : fillRect m r c = forRange r.Min.Y r.Max.Y
    (fun y m => forRange r.Min.X r.Max.X (fun x m => m.SetNRGBA x y c) m) m := rfl
  rw [e, k3]
  congr 1
  apply propext
  rw [Point.In_iff x y r]
  constructor
  · rintro ⟨⟨h1, h2⟩, ⟨h3, h4⟩, h5⟩
    exact ⟨⟨h3, h4, h1, by
      rcases le_total r.Min.Y r.Max.Y with h | h
      · rwa [max_eq_right h] at h2
      · rw [max_eq_left h] at h2
        omega⟩, h5⟩
  · rintro ⟨⟨h1, h2, h3, h4⟩, h5⟩
    exact ⟨⟨h3, lt_of_lt_of_le h4 (le_max_right _ _)⟩, ⟨h1, h2⟩, h5⟩



/-! ## init -/

theorem sha1_Sum_length (data : List Byte) : (sha1.Sum data).length = 20 := by
  simp [sha1.Sum, sha1.putUint32]

/-- The avatar left by a successful `init`, field by field. -/
theorem init_eq (ul : List Byte → List Byte) (a : Avatar) (h : 1 ≤ a.Size) :
    a.init ul = some (
      { Text := a.Text
        Size := a.Size
        Padding := (if a.Padding < 0 then 0 else if a.Padding > 10 then 10 else a.Padding) *
          Int.tdiv a.Size 100
        BGColor := if a.BGColor = ⟨0, 0, 0, 0⟩ then DefaultBG else a.BGColor
        Color := if a.Color = ⟨0, 0, 0, 0⟩ then
            ⟨(sha1.Sum (ToLower ul a.Text)).getD 0 0, (sha1.Sum (ToLower ul a.Text)).getD 1 0,
             (sha1.Sum (ToLower ul a.Text)).getD 2 0, 0xff⟩
          else a.Color
        palette := ⟨fun r c => ((sha1.Sum (ToLower ul a.Text)).getD
          (3 + (3 * r.val + min c.val (4 - c.val))) 0).val % 2 == 0⟩ }, none) := by
  have hlen := sha1_Sum_length (ToLower ul a.Text)
  have hsl : sliceFrom (sha1.Sum (ToLower ul a.Text)) 3 =
      some ((sha1.Sum (ToLower ul a.Text)).drop 3) := by
    simp [sliceFrom, hlen]
  have hmix := mixColor_eq ((sha1.Sum (ToLower ul a.Text)).drop 3) (by simp [hlen])
  have h0 : (sha1.Sum (ToLower ul a.Text))[0]? = some ((sha1.Sum (ToLower ul a.Text)).getD 0 0) := by
    rw [List.getD_eq_getElem?_getD, List.getElem?_eq_getElem (by omega)]; rfl
  have h1 : (sha1.Sum (ToLower ul a.Text))[1]? = some ((sha1.Sum (ToLower ul a.Text)).getD 1 0) := by
    rw [List.getD_eq_getElem?_getD, List.getElem?_eq_getElem (by omega)]; rfl
  have h2 : (sha1.Sum (ToLower ul a.Text))[2]? = some ((sha1.Sum (ToLower ul a.Text)).getD 2 0) := by
    rw [List.getD_eq_getElem?_getD, List.getElem?_eq_getElem (by omega)]; rfl
  have hdrop : ∀ k, ((sha1.Sum (ToLower ul a.Text)).drop 3).getD k 0 =
      (sha1.Sum (ToLower ul a.Text)).getD (3 + k) 0 := by
    intro k
    simp [List.getD_eq_getElem?_getD, List.getElem?_drop]
  simp only [hdrop] at hmix
  have hs : ¬ a.Size < 1 := by omega
  unfold Avatar.init
  rw [if_neg hs]
  by_cases hp : a.Padding < 0 <;> by_cases hp2 : a.Padding > 10 <;>
    by_cases hb : a.BGColor = ⟨0, 0, 0, 0⟩ <;> by_cases hc : a.Color = ⟨0, 0, 0, 0⟩ <;>
    simp only [hp, hp2, hb, hc, if_true, if_false, hsl, hmix, h0, h1, h2, Option.bind_eq_bind,
      Option.some_bind, Option.pure_def]


/-! ## Geometry -/

theorem Rect_of_le (x0 y0 x1 y1 : Int) (hx : x0 ≤ x1) (hy : y0 ≤ y1) :
    Rect x0 y0 x1 y1 = ⟨⟨x0, y0⟩, ⟨x1, y1⟩⟩ := by
  simp [Rect, not_lt.mpr hx, not_lt.mpr hy]

theorem Rect_Dx_nonneg (x0 y0 x1 y1 : Int) : 0 ≤ (Rect x0 y0 x1 y1).Dx := by
  unfold Rect Rectangle.Dx
  by_cases h : x0 > x1 <;> simp [h] <;> omega

/-- The drawable region for a padding with `0 <= 2 * pad <= size`. -/
theorem alignCenter_eq (size pad : Int) (h1 : 2 * pad ≤ size) :
    alignCenter size pad =
      ⟨⟨pad + (size - 2 * pad) % 5 / 2, pad + (size - 2 * pad) % 5 / 2⟩,
       ⟨size - (pad + (size - 2 * pad) % 5 / 2), size - (pad + (size - 2 * pad) % 5 / 2)⟩⟩ := by
  have e1 : Int.tmod (size - pad * 2) (nblock : Int) = (size - 2 * pad) % 5 := by
    rw [Int.tmod_eq_emod (by omega) (by simp)]
    have : size - pad * 2 = size - 2 * pad := by ring
    rw [this]
    rfl
  have e2 : ∀ r : Int, r >>> (1 : Nat) = r / 2 := by
    intro r
    rw [Int.shiftRight_eq_div_pow]
    norm_num
  unfold alignCenter
  simp only [e1, e2]
  rw [Rect_of_le] <;> omega


/-! ## Create -/

/-- The image made by `Create` after a successful `init`: bounds, and every
pixel of the canvas in terms of the palette and the block squares. -/
theorem Create_of_init (ul : List Byte → List Byte) (a a' : Avatar)
    (hi : a.init ul = some (a', none)) (hS : 0 ≤ a'.Size) :
    ∃ m, a.Create ul = some (a', some m, none) ∧ m.WF ∧
      m.Rect = ⟨⟨0, 0⟩, ⟨a'.Size, a'.Size⟩⟩ ∧
      ∀ x y, 0 ≤ x → x < a'.Size → 0 ≤ y → y < a'.Size →
        m.NRGBAAt x y =
          if ∃ i j : Fin nblock, a'.palette.cell i j = true ∧
              (alignCenter a'.Size a'.Padding).Min.X +
                  j.val * Int.tdiv (alignCenter a'.Size a'.Padding).Dx nblock ≤ x ∧
              x < (alignCenter a'.Size a'.Padding).Min.X +
                  (j.val + 1) * Int.tdiv (alignCenter a'.Size a'.Padding).Dx nblock ∧
              (alignCenter a'.Size a'.Padding).Min.Y +
                  i.val * Int.tdiv (alignCenter a'.Size a'.Padding).Dx nblock ≤ y ∧
              y < (alignCenter a'.Size a'.Padding).Min.Y +
                  (i.val + 1) * Int.tdiv (alignCenter a'.Size a'.Padding).Dx nblock
          then a'.Color else a'.BGColor := by
  have hn : nblock = 5 := rfl
  generalize hR : alignCenter a'.Size a'.Padding = R
  generalize hbs : Int.tdiv R.Dx nblock = bs
  have hbs0 : 0 ≤ bs := by
    rw [← hbs, ← hR]
    exact Int.tdiv_nonneg (by unfold alignCenter; exact Rect_Dx_nonneg _ _ _ _) (by simp)
  have hr : Rect 0 0 a'.Size a'.Size = ⟨⟨0, 0⟩, ⟨a'.Size, a'.Size⟩⟩ := Rect_of_le _ _ _ _ hS hS
  obtain ⟨b1, b2, b3⟩ := fillRect_spec (NewNRGBA (Rect 0 0 a'.Size a'.Size))
    (Rect 0 0 a'.Size a'.Size) a'.BGColor (NewNRGBA_WF _)
  generalize hm1 : fillRect (NewNRGBA (Rect 0 0 a'.Size a'.Size))
    (Rect 0 0 a'.Size a'.Size) a'.BGColor = m1 at b1 b2 b3
  have b2' : m1.Rect = ⟨⟨0, 0⟩, ⟨a'.Size, a'.Size⟩⟩ := by rw [b2]; exact hr
  have outer := foldlM_range_inv
    (fun (st : Image × Int) i => do
      let hr := R.Min.X
      let st2 ← (List.range nblock).foldlM (fun (st2 : Image × Int) j => do
        let cell ← a'.palette.get? i j
        let m := if cell then
            fillRect st2.1 (Rect st2.2 st.2 (st2.2 + bs) (st.2 + bs)) a'.Color
          else st2.1
        pure (m, st2.2 + bs)) (st.1, hr)
      pure (st2.1, st.2 + bs))
    (fun i st => st.2 = R.Min.Y + i * bs ∧ st.1.WF ∧ st.1.Rect = m1.Rect ∧
      ∀ x y, st.1.NRGBAAt x y =
        if ∃ i' j' : Fin nblock, i'.val < i ∧ a'.palette.cell i' j' = true ∧
            (R.Min.X + j'.val * bs ≤ x ∧ x < R.Min.X + (j'.val + 1) * bs ∧
             R.Min.Y + i'.val * bs ≤ y ∧ y < R.Min.Y + (i'.val + 1) * bs) ∧
            Point.In ⟨x, y⟩ m1.Rect = true
        then a'.Color else m1.NRGBAAt x y)
    nblock (m1, R.Min.Y)
    ⟨by simp, b1, rfl, fun x y => by
      rw [if_neg]
      rintro ⟨i', j', h, _⟩
      omega⟩
    (by
      rintro i st hi5 ⟨hvt, hwf, hrect, hat⟩
      have inner := foldlM_range_inv
        (fun (st2 : Image × Int) j => do
          let cell ← a'.palette.get? i j
          let m := if cell then
              fillRect st2.1 (Rect st2.2 st.2 (st2.2 + bs) (st.2 + bs)) a'.Color
            else st2.1
          pure (m, st2.2 + bs))
        (fun j st2 => st2.2 = R.Min.X + j * bs ∧ st2.1.WF ∧ st2.1.Rect = m1.Rect ∧
          ∀ x y, st2.1.NRGBAAt x y =
            if ∃ i' j' : Fin nblock, (i'.val < i ∨ (i'.val = i ∧ j'.val < j)) ∧
                a'.palette.cell i' j' = true ∧
                (R.Min.X + j'.val * bs ≤ x ∧ x < R.Min.X + (j'.val + 1) * bs ∧
                 R.Min.Y + i'.val * bs ≤ y ∧ y < R.Min.Y + (i'.val + 1) * bs) ∧
                Point.In ⟨x, y⟩ m1.Rect = true
            then a'.Color else m1.NRGBAAt x y)
        nblock (st.1, R.Min.X)
        ⟨by simp, hwf, hrect, fun x y => by
          rw [hat]
          congr 1
          apply propext
          constructor
          · rintro ⟨i', j', h1, h2⟩
            exact ⟨i', j', Or.inl h1, h2⟩
          · rintro ⟨i', j', h1 | ⟨_, h1⟩, h2⟩
            · exact ⟨i', j', h1, h2⟩
            · omega⟩
        (by
          rintro j st2 hj5 ⟨hhr, hwf2, hrect2, hat2⟩
          have hget : a'.palette.get? i j = some (a'.palette.cell ⟨i, hi5⟩ ⟨j, hj5⟩) := by
            simp [palette.get?, hi5, hj5]
          simp only [hget, Option.bind_eq_bind, Option.some_bind, Option.pure_def]
          refine ⟨_, rfl, ?_, ?_⟩
          · simp only [hhr]
            push_cast
            ring
          · by_cases hcell : a'.palette.cell ⟨i, hi5⟩ ⟨j, hj5⟩ = true
            · simp only [hcell, if_true]
              obtain ⟨f1, f2, f3⟩ := fillRect_spec st2.1
                (Rect st2.2 st.2 (st2.2 + bs) (st.2 + bs)) a'.Color hwf2
              refine ⟨f1, by rw [f2, hrect2], fun x y => ?_⟩
              rw [f3, hat2, hrect2, Rect_of_le _ _ _ _ (by omega) (by omega)]
              have e1 : ((j : Int) + 1) * bs = (j : Int) * bs + bs := by ring
              have e2 : ((i : Int) + 1) * bs = (i : Int) * bs + bs := by ring
              have hblk : Point.In ⟨x, y⟩ ⟨⟨st2.2, st.2⟩, ⟨st2.2 + bs, st.2 + bs⟩⟩ = true ↔
                  (R.Min.X + (j : Int) * bs ≤ x ∧ x < R.Min.X + ((j : Int) + 1) * bs ∧
                   R.Min.Y + (i : Int) * bs ≤ y ∧ y < R.Min.Y + ((i : Int) + 1) * bs) := by
                rw [Point.In_iff, hhr, hvt, e1, e2]
                simp only [add_assoc]
              by_cases hnew : Point.In ⟨x, y⟩ ⟨⟨st2.2, st.2⟩, ⟨st2.2 + bs, st.2 + bs⟩⟩ = true ∧
                  Point.In ⟨x, y⟩ m1.Rect = true
              · rw [if_pos hnew, if_pos]
                exact ⟨⟨i, hi5⟩, ⟨j, hj5⟩, Or.inr ⟨rfl, Nat.lt_succ_self j⟩, hcell,
                  hblk.mp hnew.1, hnew.2⟩
              · rw [if_neg hnew]
                congr 1
                apply propext
                constructor
                · rintro ⟨i', j', h1 | ⟨h1, h1'⟩, h2⟩
                  · exact ⟨i', j', Or.inl h1, h2⟩
                  · exact ⟨i', j', Or.inr ⟨h1, Nat.lt_succ_of_lt h1'⟩, h2⟩
                · rintro ⟨i', j', h1 | ⟨h1, h1'⟩, h2, h3, h4⟩
                  · exact ⟨i', j', Or.inl h1, h2, h3, h4⟩
                  · by_cases hjj : j'.val = j
                    · exfalso
                      apply hnew
                      refine ⟨hblk.mpr ?_, h4⟩
                      rw [h1, hjj] at h3
                      exact h3
                    · exact ⟨i', j', Or.inr ⟨h1, by omega⟩, h2, h3, h4⟩
            · simp only [hcell, Bool.false_eq_true, if_false]
              refine ⟨hwf2, hrect2, fun x y => ?_⟩
              rw [hat2]
              congr 1
              apply propext
              constructor
              · rintro ⟨i', j', h1 | ⟨h1, h1'⟩, h2⟩
                · exact ⟨i', j', Or.inl h1, h2⟩
                · exact ⟨i', j', Or.inr ⟨h1, Nat.lt_succ_of_lt h1'⟩, h2⟩
              · rintro ⟨i', j', h1 | ⟨h1, h1'⟩, h2, h3, h4⟩
                · exact ⟨i', j', Or.inl h1, h2, h3, h4⟩
                · by_cases hjj : j'.val = j
                  · exfalso
                    apply hcell
                    have e1 : i' = ⟨i, hi5⟩ := Fin.ext h1
                    have e2 : j' = ⟨j, hj5⟩ := Fin.ext hjj
                    rw [← e1, ← e2]
                    exact h2
                  · exact ⟨i', j', Or.inr ⟨h1, by omega⟩, h2, h3, h4⟩)
      obtain ⟨s2, hs2, k1, k2, k3, k4⟩ := inner
      refine ⟨(s2.1, st.2 + bs), ?_, ?_, k2, k3, fun x y => ?_⟩
      · dsimp only
        rw [hs2]
        rfl
      · simp only [hvt]
        push_cast
        ring
      · rw [k4]
        congr 1
        apply propext
        constructor
        · rintro ⟨i', j', h1 | ⟨h1, _⟩, h2⟩
          · exact ⟨i', j', Nat.lt_succ_of_lt h1, h2⟩
          · exact ⟨i', j', by omega, h2⟩
        · rintro ⟨i', j', h1, h2⟩
          have := j'.isLt
          by_cases h : i'.val < i
          · exact ⟨i', j', Or.inl h, h2⟩
          · exact ⟨i', j', Or.inr ⟨by omega, by omega⟩, h2⟩)
  obtain ⟨s, hs, _, o2, o3, o4⟩ := outer
  refine ⟨s.1, ?_, o2, by rw [o3, b2'], fun x y hx0 hx1 hy0 hy1 => ?_⟩
  · unfold Avatar.Create
    simp only [hi, hR, hbs, hm1, hs, Option.map_some']
  · have hin : Point.In ⟨x, y⟩ m1.Rect = true := by
      rw [b2', Point.In_iff]
      exact ⟨hx0, hx1, hy0, hy1⟩
    have hin0 : Point.In ⟨x, y⟩ (Rect 0 0 a'.Size a'.Size) = true := by
      rw [hr, Point.In_iff]
      exact ⟨hx0, hx1, hy0, hy1⟩
    have hin1 : Point.In ⟨x, y⟩ (NewNRGBA (Rect 0 0 a'.Size a'.Size)).Rect = true := hin0
    have hbg : m1.NRGBAAt x y = a'.BGColor := by rw [b3, if_pos ⟨hin0, hin1⟩]
    rw [o4, hbg]
    congr 1
    apply propext
    constructor
    · rintro ⟨i', j', _, h2, h3, _⟩
      exact ⟨i', j', h2, h3⟩
    · rintro ⟨i', j', h2, h3⟩
      exact ⟨i', j', i'.isLt, h2, h3, hin⟩



/-- An invalid size: `init` returns the error and leaves the avatar as it was. -/
theorem init_invalid (ul : List Byte → List Byte) (a : Avatar) (h : a.Size < 1) :
    a.init ul = some (a, some "invalid Avatar.Size") := by
  unfold Avatar.init
  rw [if_pos h]

/-- An invalid size: `Create` returns no image and the error of `init`. -/
theorem Create_invalid (ul : List Byte → List Byte) (a : Avatar) (h : a.Size < 1) :
    a.Create ul = some (a, none, some "invalid Avatar.Size") := by
  unfold Avatar.Create
  rw [init_invalid ul a h]

/-- The pixel padding left by `init` is at most a tenth of the size. -/
theorem clamp_padding_bounds (size p : Int) (h : 1 ≤ size) :
    0 ≤ (if p < 0 then 0 else if p > 10 then 10 else p) * Int.tdiv size 100 ∧
    2 * ((if p < 0 then 0 else if p > 10 then 10 else p) * Int.tdiv size 100) ≤ size := by
  have hq : Int.tdiv size 100 = size / 100 := Int.tdiv_eq_ediv (by omega) (by omega)
  rw [hq]
  have hq0 : 0 ≤ size / 100 := Int.ediv_nonneg (by omega) (by omega)
  have hq1 : 100 * (size / 100) ≤ size := Int.mul_ediv_self_le (by omega)
  have hc : 0 ≤ (if p < 0 then 0 else if p > 10 then 10 else p) ∧
      (if p < 0 then 0 else if p > 10 then 10 else p) ≤ 10 := by
    split_ifs <;> omega
  generalize (if p < 0 then 0 else if p > 10 then 10 else p) = c at hc
  obtain ⟨hc0, hc1⟩ := hc
  have h1 : c * (size / 100) ≤ 10 * (size / 100) := Int.mul_le_mul_of_nonneg_right hc1 hq0
  exact ⟨Int.mul_nonneg hc0 hq0, by omega⟩

/-- The drawable region and the block size in closed form, for a padding with
`0 <= 2 * pad <= size`. -/
theorem geometry_eq (size pad : Int) (h1 : 2 * pad ≤ size) :
    (alignCenter size pad).Min.X = pad + (size - 2 * pad) % 5 / 2 ∧
    (alignCenter size pad).Min.Y = pad + (size - 2 * pad) % 5 / 2 ∧
    Int.tdiv (alignCenter size pad).Dx nblock =
      (size - 2 * (pad + (size - 2 * pad) % 5 / 2)) / 5 := by
  rw [alignCenter_eq size pad h1]
  refine ⟨rfl, rfl, ?_⟩
  simp only [Rectangle.Dx]
  rw [Int.tdiv_eq_ediv (by omega) (by simp)]
  have : size - (pad + (size - 2 * pad) % 5 / 2) - (pad + (size - 2 * pad) % 5 / 2) =
      size - 2 * (pad + (size - 2 * pad) % 5 / 2) := by ring
  rw [this]
  rfl

/-- A valid size: `Create` succeeds, and the image is described pixel by pixel
by the palette, the colours and the padding that `init` leaves. -/
theorem Create_spec (ul : List Byte → List Byte) (a : Avatar) (h : 1 ≤ a.Size) :
    ∃ a' m, a.init ul = some (a', none) ∧ a.Create ul = some (a', some m, none) ∧
      a'.Size = a.Size ∧ 0 ≤ a'.Padding ∧ 2 * a'.Padding ≤ a.Size ∧
      m.Rect = ⟨⟨0, 0⟩, ⟨a.Size, a.Size⟩⟩ ∧
      ∀ x y, 0 ≤ x → x < a.Size → 0 ≤ y → y < a.Size →
        m.NRGBAAt x y =
          if ∃ i j : Fin nblock, a'.palette.cell i j = true ∧
              (a'.Padding + (a.Size - 2 * a'.Padding) % 5 / 2) + j.val *
                ((a.Size - 2 * (a'.Padding + (a.Size - 2 * a'.Padding) % 5 / 2)) / 5) ≤ x ∧
              x < (a'.Padding + (a.Size - 2 * a'.Padding) % 5 / 2) + (j.val + 1) *
                ((a.Size - 2 * (a'.Padding + (a.Size - 2 * a'.Padding) % 5 / 2)) / 5) ∧
              (a'.Padding + (a.Size - 2 * a'.Padding) % 5 / 2) + i.val *
                ((a.Size - 2 * (a'.Padding + (a.Size - 2 * a'.Padding) % 5 / 2)) / 5) ≤ y ∧
              y < (a'.Padding + (a.Size - 2 * a'.Padding) % 5 / 2) + (i.val + 1) *
                ((a.Size - 2 * (a'.Padding + (a.Size - 2 * a'.Padding) % 5 / 2)) / 5)
          then a'.Color else a'.BGColor := by
  have hi := init_eq ul a h
  obtain ⟨hp0, hp1⟩ := clamp_padding_bounds a.Size a.Padding h
  generalize ha' : (Avatar.mk a.Text a.Size _ _ _ _) = a' at hi
  have hsz : a'.Size = a.Size := by rw [← ha']
  have hpad : a'.Padding = (if a.Padding < 0 then 0 else if a.Padding > 10 then 10
      else a.Padding) * Int.tdiv a.Size 100 := by rw [← ha']
  rw [← hpad] at hp0 hp1
  obtain ⟨m, hm, _, hrect, hpix⟩ := Create_of_init ul a a' hi (by omega)
  obtain ⟨g1, g2, g3⟩ := geometry_eq a.Size a'.Padding hp1
  rw [hsz] at hrect hpix
  rw [g1, g2, g3] at hpix
  exact ⟨a', m, hi, hm, hsz, hp0, hp1, hrect, hpix⟩

/-- The image and the error returned by `Create` are determined by the avatar
that `init` leaves, its `Text` apart. -/
theorem Create_congr (ul : List Byte → List Byte) (a1 a2 a1' a2' : Avatar)
    (h1 : a1.init ul = some (a1', none)) (h2 : a2.init ul = some (a2', none))
    (hS : a1'.Size = a2'.Size) (hP : a1'.Padding = a2'.Padding)
    (hB : a1'.BGColor = a2'.BGColor) (hC : a1'.Color = a2'.Color)
    (hp : a1'.palette = a2'.palette) :
    (a1.Create ul).map (fun r => r.2) = (a2.Create ul).map (fun r => r.2) := by
  unfold Avatar.Create
  rw [h1, h2]
  simp only [hS, hP, hB, hC, hp, Option.map_map]
  rfl



/-- Reading a cell of a palette given cell by cell. -/
theorem palette_get?_mk (f : Fin nblock → Fin nblock → Bool) (i j : Nat) (hi : i < 5)
    (hj : j < 5) : (palette.mk f).get? i j = some (f ⟨i, hi⟩ ⟨j, hj⟩) := by
  have h : i < nblock ∧ j < nblock := ⟨hi, hj⟩
  simp [palette.get?, h]

/-- The palette that a successful `init` stores is the one `mixColor` makes of
the digest without its first three bytes. -/
theorem init_palette (ul : List Byte → List Byte) (a : Avatar) (h : 1 ≤ a.Size) :
    ∃ a', a.init ul = some (a', none) ∧
      mixColor ((sha1.Sum (ToLower ul a.Text)).drop 3) = some a'.palette := by
  refine ⟨_, init_eq ul a h, ?_⟩
  rw [mixColor_eq _ (by simp [sha1_Sum_length])]
  simp only [List.getD_eq_getElem?_getD, List.getElem?_drop]

/-! ## The claims -/

/-- C1: for every byte sequence of length at least 15 the palette returned by
`mixColor` is horizontally symmetric, `palette[row][col] == palette[row][4-col]`
for every row and column in 0..4; in particular so is the palette that `init`
makes of the 17 digest bytes `digest[3:]`, for every text. -/
theorem C1_palette_symmetric (recipe : List Byte) (h : 15 ≤ recipe.length) :
    (∃ p, mixColor recipe = some p ∧
      ∀ row col, row < 5 → col < 5 →
        ∃ v, p.get? row col = some v ∧ p.get? row (4 - col) = some v) ∧
    (∀ (ul : List Byte → List Byte) (text : List Byte),
      ∃ p, mixColor ((sha1.Sum (ToLower ul text)).drop 3) = some p ∧
        ∀ row col, row < 5 → col < 5 →
          ∃ v, p.get? row col = some v ∧ p.get? row (4 - col) = some v) := by
  have key : ∀ r : List Byte, 15 ≤ r.length → ∃ p, mixColor r = some p ∧
      ∀ row col, row < 5 → col < 5 →
        ∃ v, p.get? row col = some v ∧ p.get? row (4 - col) = some v := by
    intro r hr
    refine ⟨_, mixColor_eq r hr, fun row col hrow hcol => ⟨_, palette_get?_mk _ _ _ hrow hcol, ?_⟩⟩
    rw [palette_get?_mk _ _ _ hrow (by omega)]
    have e : min (4 - col) (4 - (4 - col)) = min col (4 - col) := by omega
    simp only [e]
  exact ⟨key recipe h, fun ul text => key _ (by simp [sha1_Sum_length])⟩

/-- Witness of C1: the 17 bytes `digest[3:]` of the text "sometext". -/
theorem C1_palette_symmetric_witness :
    ∃ p, mixColor [140, 142, 173, 153, 219, 215, 237, 219, 134, 16, 68, 150, 243, 238, 8,
        112, 73] = some p ∧
      ∀ row col, row < 5 → col < 5 →
        ∃ v, p.get? row col = some v ∧ p.get? row (4 - col) = some v :=
  (C1_palette_symmetric [140, 142, 173, 153, 219, 215, 237, 219, 134, 16, 68, 150, 243, 238, 8,
    112, 73] (by decide)).1

/-- The buffer length that `image.NewNRGBA` computes for the canvas of `Create`. -/
theorem pixelBufferLength_canvas (size : Int) (h : 1 ≤ size) :
    pixelBufferLength 4 (Rect 0 0 size size) =
      if 4 * size * size ≤ maxInt then some (4 * size * size) else none := by
  have hmax : maxInt = 9223372036854775807 := by decide
  have hsq : size ≤ size * size := by nlinarith
  rw [Rect_of_le 0 0 size size (by omega) (by omega)]
  unfold pixelBufferLength mul3NonNeg Rectangle.Dx Rectangle.Dy
  simp only [sub_zero]
  have h0 : ¬ ((4 : Int) < 0 ∨ size < 0 ∨ size < 0) := by omega
  rw [if_neg h0]
  by_cases hfit : 4 * size * size ≤ maxInt
  · have e1 : ¬ (4 * size ≥ 2 ^ 64) := by
      norm_num
      nlinarith
    have e2 : ¬ (4 * size * size ≥ 2 ^ 64) := by
      norm_num
      omega
    have e3 : ¬ (4 * size * size > maxInt) := by omega
    have e4 : ¬ (4 * size * size < 0) := by nlinarith
    simp only [e1, e2, e3, e4, if_false, hfit, if_true]
  · have e5 : (-1 : Int) < 0 := by decide
    rw [if_neg hfit]
    by_cases e1 : 4 * size ≥ 2 ^ 64
    · simp only [e1, if_true, e5]
    · by_cases e2 : 4 * size * size ≥ 2 ^ 64
      · simp only [e1, e2, if_true, if_false, e5]
      · have e3 : 4 * size * size > maxInt := by omega
        simp only [e1, e2, e3, if_true, if_false, e5]

/-- The method `Create` with the allocation check, by cases on the size. -/
theorem CreateChecked_eq (ul : List Byte → List Byte) (a : Avatar) :
    a.CreateChecked ul =
      if a.Size < 1 then some (a, none, some "invalid Avatar.Size")
      else if 4 * a.Size * a.Size ≤ maxInt then a.Create ul
      else none := by
  by_cases h : a.Size < 1
  · rw [if_pos h]
    unfold Avatar.CreateChecked
    rw [init_invalid ul a h]
  · rw [if_neg h]
    have h1 : 1 ≤ a.Size := by omega
    have hi := init_eq ul a h1
    unfold Avatar.CreateChecked
    rw [hi]
    simp only
    rw [pixelBufferLength_canvas a.Size h1]
    by_cases hfit : 4 * a.Size * a.Size ≤ maxInt
    · simp only [hfit, if_true]
    · simp only [hfit, if_false]

/-- C2 (as amended): `Create` returns an error if and only if `Size < 1`,
whatever the text, the padding and the colours; with the error it returns no
image and leaves the avatar, every field of it, as it was.  With `Size >= 1`
and a buffer length `4 * Size * Size` that fits in `int` it returns an image
with bounds `(0,0)-(Size,Size)` and no error; with `Size >= 1` and a buffer
length that overflows `int` the call of `image.NewNRGBA` panics, and `Create`
returns neither an image nor an error. -/
theorem C2_size_validation (ul : List Byte → List Byte) (a : Avatar) :
    ((∃ a' img e, a.CreateChecked ul = some (a', img, some e)) ↔ a.Size < 1) ∧
    (a.Size < 1 → ∃ e, a.CreateChecked ul = some (a, none, some e)) ∧
    (1 ≤ a.Size → 4 * a.Size * a.Size ≤ maxInt →
      ∃ a' m, a.CreateChecked ul = some (a', some m, none) ∧
        m.Rect = ⟨⟨0, 0⟩, ⟨a.Size, a.Size⟩⟩) ∧
    (1 ≤ a.Size → maxInt < 4 * a.Size * a.Size → a.CreateChecked ul = none) := by
  have hbad : a.Size < 1 → ∃ e, a.CreateChecked ul = some (a, none, some e) := by
    intro h
    rw [CreateChecked_eq, if_pos h]
    exact ⟨_, rfl⟩
  have hgood : 1 ≤ a.Size → 4 * a.Size * a.Size ≤ maxInt →
      ∃ a' m, a.CreateChecked ul = some (a', some m, none) ∧
        m.Rect = ⟨⟨0, 0⟩, ⟨a.Size, a.Size⟩⟩ := by
    intro h hfit
    obtain ⟨a', m, _, hm, _, _, _, hr, _⟩ := Create_spec ul a h
    rw [CreateChecked_eq, if_neg (by omega), if_pos hfit]
    exact ⟨a', m, hm, hr⟩
  have hhuge : 1 ≤ a.Size → maxInt < 4 * a.Size * a.Size → a.CreateChecked ul = none := by
    intro h hbig
    rw [CreateChecked_eq, if_neg (by omega), if_neg (by omega)]
  refine ⟨⟨?_, fun h => ?_⟩, hbad, hgood, hhuge⟩
  · rintro ⟨a', img, e, he⟩
    by_contra hn
    have h1 : 1 ≤ a.Size := by omega
    by_cases hfit : 4 * a.Size * a.Size ≤ maxInt
    · obtain ⟨a'', m, hm, _⟩ := hgood h1 hfit
      rw [hm] at he
      simp at he
    · rw [hhuge h1 (by omega)] at he
      simp at he
  · obtain ⟨e, he⟩ := hbad h
    exact ⟨a, none, e, he⟩

/-- Witness of C2: the empty text with size 0 fails and leaves the avatar as it
was; the empty text with size 50 and padding 10 gives a 50 x 50 image. -/
theorem C2_size_validation_witness :
    (∃ e, Avatar.CreateChecked (fun s => s)
        ⟨[], 0, 10, ⟨0, 0, 0, 0⟩, ⟨0, 0, 0, 0⟩, palette.zero⟩ =
      some (⟨[], 0, 10, ⟨0, 0, 0, 0⟩, ⟨0, 0, 0, 0⟩, palette.zero⟩, none, some e)) ∧
    (∃ a' m, Avatar.CreateChecked (fun s => s)
        ⟨[], 50, 10, ⟨0, 0, 0, 0⟩, ⟨0, 0, 0, 0⟩, palette.zero⟩ = some (a', some m, none) ∧
      m.Rect = ⟨⟨0, 0⟩, ⟨50, 50⟩⟩) :=
  ⟨(C2_size_validation (fun s => s)
      ⟨[], 0, 10, ⟨0, 0, 0, 0⟩, ⟨0, 0, 0, 0⟩, palette.zero⟩).2.1 (by decide),
   (C2_size_validation (fun s => s)
      ⟨[], 50, 10, ⟨0, 0, 0, 0⟩, ⟨0, 0, 0, 0⟩, palette.zero⟩).2.2.1 (by decide) (by decide)⟩

/-- Counterexample to C2 as stated: with the size 2147483648, which is at least
1, the buffer length `4 * Size * Size = 2^64` overflows `int`, `image.NewNRGBA`
panics and `Create` returns no image. -/
theorem C2_counterexample :
    (1 : Int) ≤ 2147483648 ∧
    Avatar.CreateChecked (fun s => s)
      ⟨[], 2147483648, 0, ⟨0, 0, 0, 0⟩, ⟨0, 0, 0, 0⟩, palette.zero⟩ = none ∧
    ¬ ∃ a' m, Avatar.CreateChecked (fun s => s)
      ⟨[], 2147483648, 0, ⟨0, 0, 0, 0⟩, ⟨0, 0, 0, 0⟩, palette.zero⟩ =
        some (a', some m, none) := by
  have hnone : Avatar.CreateChecked (fun s => s)
      ⟨[], 2147483648, 0, ⟨0, 0, 0, 0⟩, ⟨0, 0, 0, 0⟩, palette.zero⟩ = none := by
    rw [CreateChecked_eq, if_neg (by decide), if_neg (by decide)]
  refine ⟨by decide, hnone, ?_⟩
  rintro ⟨a', m, hm⟩
  rw [hnone] at hm
  exact absurd hm (by simp)

/-- C3: for every 20-byte digest `d` the palette built by `mixColor(d[3:])` has
`palette[i][j]` true iff byte `d[3 + 3*i + j]` is even, for every row `i` in 0..4
and column `j` in 0..2, and `palette[i][4-j]` has the same value.  A digest that
agrees with `d` on bytes 3..17 gives the same palette, and this palette is the
one `init` stores when `d` is the digest of the lower-cased text. -/
theorem C3_palette_rule (d : List Byte) (hd : d.length = 20) :
    ∃ p, (sliceFrom d 3).bind mixColor = some p ∧
      (∀ i j, i < 5 → j < 3 → ∃ b, d[3 + 3 * i + j]? = some b ∧
        p.get? i j = some (b.val % 2 == 0) ∧ p.get? i (4 - j) = some (b.val % 2 == 0)) ∧
      (∀ d2 : List Byte, d2.length = 20 → (∀ k, 3 ≤ k → k ≤ 17 → d2[k]? = d[k]?) →
        (sliceFrom d2 3).bind mixColor = some p) ∧
      (∀ (ul : List Byte → List Byte) (a : Avatar), 1 ≤ a.Size →
        sha1.Sum (ToLower ul a.Text) = d →
        ∃ a', a.init ul = some (a', none) ∧ a'.palette = p) := by
  have hform : ∀ e : List Byte, e.length = 20 → (sliceFrom e 3).bind mixColor =
      some ⟨fun r c => (e.getD (3 + (3 * r.val + min c.val (4 - c.val))) 0).val % 2 == 0⟩ := by
    intro e he
    have hs : sliceFrom e 3 = some (e.drop 3) := by simp [sliceFrom, he]
    rw [hs, Option.some_bind, mixColor_eq _ (by simp [he])]
    simp only [List.getD_eq_getElem?_getD, List.getElem?_drop]
  refine ⟨_, hform d hd, ?_, ?_, ?_⟩
  · intro i j hi hj
    have hlt : 3 + 3 * i + j < d.length := by omega
    refine ⟨d[3 + 3 * i + j], List.getElem?_eq_getElem hlt, ?_, ?_⟩
    · rw [palette_get?_mk _ _ _ hi (by omega)]
      have e : 3 + (3 * i + min j (4 - j)) = 3 + 3 * i + j := by omega
      simp only [e, List.getD_eq_getElem _ _ hlt]
    · rw [palette_get?_mk _ _ _ hi (by omega)]
      have e : 3 + (3 * i + min (4 - j) (4 - (4 - j))) = 3 + 3 * i + j := by omega
      simp only [e, List.getD_eq_getElem _ _ hlt]
  · intro d2 hd2 hagree
    rw [hform d2 hd2]
    congr 2
    funext r c
    have hn : nblock = 5 := rfl
    have hr := r.isLt
    have hc := c.isLt
    have := hagree (3 + (3 * r.val + min c.val (4 - c.val))) (by omega) (by omega)
    simp only [List.getD_eq_getElem?_getD, this]
  · intro ul a ha hda
    subst hda
    obtain ⟨a', hi, hp⟩ := init_palette ul a ha
    refine ⟨a', hi, ?_⟩
    have h2 := hform _ hd
    have hs : sliceFrom (sha1.Sum (ToLower ul a.Text)) 3 =
        some ((sha1.Sum (ToLower ul a.Text)).drop 3) := by simp [sliceFrom, hd]
    rw [hs, Option.some_bind, hp] at h2
    exact Option.some.inj h2

/-- Witness of C3: the digest of the text "sometext". -/
theorem C3_palette_rule_witness :
    ∃ p, (sliceFrom [210, 42, 21, 140, 142, 173, 153, 219, 215, 237, 219, 134, 16, 68, 150,
        243, 238, 8, 112, 73] 3).bind mixColor = some p ∧
      (∀ i j, i < 5 → j < 3 → ∃ b, ([210, 42, 21, 140, 142, 173, 153, 219, 215, 237, 219, 134,
          16, 68, 150, 243, 238, 8, 112, 73] : List Byte)[3 + 3 * i + j]? = some b ∧
        p.get? i j = some (b.val % 2 == 0) ∧ p.get? i (4 - j) = some (b.val % 2 == 0)) :=
  let ⟨p, h1, h2, _⟩ := C3_palette_rule [210, 42, 21, 140, 142, 173, 153, 219, 215, 237, 219,
    134, 16, 68, 150, 243, 238, 8, 112, 73] (by decide)
  ⟨p, h1, h2⟩



/-- C4 (as amended): for every avatar with `Size >= 1`, with `pad` the pixel
padding after `init`, `mn = pad + ((Size - 2*pad) mod 5)/2` and
`bs = (Size - 2*mn)/5`, every pixel `(x, y)` of the canvas that lies in the
square of a true palette cell, `mn + j*bs <= x < mn + (j+1)*bs` and
`mn + i*bs <= y < mn + (i+1)*bs`, has the resolved foreground colour and every
other pixel has the resolved background colour; when the two resolved colours
differ, a pixel has the foreground colour if and only if it lies in such a
square. -/
theorem C4_rasterisation (ul : List Byte → List Byte) (a : Avatar) (h : 1 ≤ a.Size) :
    ∃ a' m, a.init ul = some (a', none) ∧ a.Create ul = some (a', some m, none) ∧
      let pad := a'.Padding
      let mn := pad + (a.Size - 2 * pad) % 5 / 2
      let bs := (a.Size - 2 * mn) / 5
      ∀ x y, 0 ≤ x → x < a.Size → 0 ≤ y → y < a.Size →
        let inBlock := ∃ i j : Fin nblock, a'.palette.cell i j = true ∧
          mn + j.val * bs ≤ x ∧ x < mn + (j.val + 1) * bs ∧
          mn + i.val * bs ≤ y ∧ y < mn + (i.val + 1) * bs
        (inBlock → m.NRGBAAt x y = a'.Color) ∧
        (¬ inBlock → m.NRGBAAt x y = a'.BGColor) ∧
        (a'.Color ≠ a'.BGColor → (m.NRGBAAt x y = a'.Color ↔ inBlock)) := by
  obtain ⟨a', m, hi, hm, _, _, _, _, hpix⟩ := Create_spec ul a h
  refine ⟨a', m, hi, hm, ?_⟩
  intro pad mn bs x y hx0 hx1 hy0 hy1 inBlock
  have hp := hpix x y hx0 hx1 hy0 hy1
  by_cases hb : inBlock
  · have e : m.NRGBAAt x y = a'.Color := by rw [hp]; exact if_pos hb
    exact ⟨fun _ => e, fun hn => absurd hb hn, fun _ => ⟨fun _ => hb, fun _ => e⟩⟩
  · have e : m.NRGBAAt x y = a'.BGColor := by rw [hp]; exact if_neg hb
    refine ⟨fun hb' => absurd hb' hb, fun _ => e, fun hne => ⟨fun hc => ?_, fun hb' => absurd hb' hb⟩⟩
    exact absurd (hc.symm.trans e) hne

/-- Witness of C4: the text "sometext" with size 12 and padding 0. -/
theorem C4_rasterisation_witness :
    ∃ a' m, Avatar.init (fun s => s) ⟨[0x73, 0x6f, 0x6d, 0x65, 0x74, 0x65, 0x78, 0x74], 12, 0,
        ⟨0, 0, 0, 0⟩, ⟨0, 0, 0, 0⟩, palette.zero⟩ = some (a', none) ∧
      Avatar.Create (fun s => s) ⟨[0x73, 0x6f, 0x6d, 0x65, 0x74, 0x65, 0x78, 0x74], 12, 0,
        ⟨0, 0, 0, 0⟩, ⟨0, 0, 0, 0⟩, palette.zero⟩ = some (a', some m, none) ∧
      ∀ x y, 0 ≤ x → x < 12 → 0 ≤ y → y < 12 →
        ((∃ i j : Fin nblock, a'.palette.cell i j = true ∧
          (a'.Padding + (12 - 2 * a'.Padding) % 5 / 2) + j.val *
            ((12 - 2 * (a'.Padding + (12 - 2 * a'.Padding) % 5 / 2)) / 5) ≤ x ∧
          x < (a'.Padding + (12 - 2 * a'.Padding) % 5 / 2) + (j.val + 1) *
            ((12 - 2 * (a'.Padding + (12 - 2 * a'.Padding) % 5 / 2)) / 5) ∧
          (a'.Padding + (12 - 2 * a'.Padding) % 5 / 2) + i.val *
            ((12 - 2 * (a'.Padding + (12 - 2 * a'.Padding) % 5 / 2)) / 5) ≤ y ∧
          y < (a'.Padding + (12 - 2 * a'.Padding) % 5 / 2) + (i.val + 1) *
            ((12 - 2 * (a'.Padding + (12 - 2 * a'.Padding) % 5 / 2)) / 5)) →
          m.NRGBAAt x y = a'.Color) :=
  let ⟨a', m, h1, h2, h3⟩ := C4_rasterisation (fun s => s)
    ⟨[0x73, 0x6f, 0x6d, 0x65, 0x74, 0x65, 0x78, 0x74], 12, 0, ⟨0, 0, 0, 0⟩, ⟨0, 0, 0, 0⟩,
      palette.zero⟩ (by decide)
  ⟨a', m, h1, h2, fun x y hx0 hx1 hy0 hy1 => (h3 x y hx0 hx1 hy0 hy1).1⟩

/-- Counterexample to C4 as stated: with size 1 and the same explicit colour
for background and foreground, the pixel `(0, 0)` has the foreground colour
although the block size is 0 and no block square contains it. -/
theorem C4_counterexample :
    ∃ a' m, Avatar.Create (fun s => s)
        ⟨[], 1, 0, ⟨1, 1, 1, 255⟩, ⟨1, 1, 1, 255⟩, palette.zero⟩ = some (a', some m, none) ∧
      ¬ (m.NRGBAAt 0 0 = a'.Color ↔
        ∃ i j : Fin nblock, a'.palette.cell i j = true ∧
          (a'.Padding + (1 - 2 * a'.Padding) % 5 / 2) + j.val *
            ((1 - 2 * (a'.Padding + (1 - 2 * a'.Padding) % 5 / 2)) / 5) ≤ 0 ∧
          (0 : Int) < (a'.Padding + (1 - 2 * a'.Padding) % 5 / 2) + (j.val + 1) *
            ((1 - 2 * (a'.Padding + (1 - 2 * a'.Padding) % 5 / 2)) / 5) ∧
          (a'.Padding + (1 - 2 * a'.Padding) % 5 / 2) + i.val *
            ((1 - 2 * (a'.Padding + (1 - 2 * a'.Padding) % 5 / 2)) / 5) ≤ 0 ∧
          (0 : Int) < (a'.Padding + (1 - 2 * a'.Padding) % 5 / 2) + (i.val + 1) *
            ((1 - 2 * (a'.Padding + (1 - 2 * a'.Padding) % 5 / 2)) / 5)) := by
  obtain ⟨a', m, hi, hm, _, _, _, _, hpix⟩ := Create_spec (fun s => s)
    ⟨[], 1, 0, ⟨1, 1, 1, 255⟩, ⟨1, 1, 1, 255⟩, palette.zero⟩ (by decide)
  have he := init_eq (fun s => s)
    ⟨[], 1, 0, ⟨1, 1, 1, 255⟩, ⟨1, 1, 1, 255⟩, palette.zero⟩ (by decide)
  rw [he] at hi
  have ha' := (Prod.mk.inj (Option.some.inj hi)).1
  have hpad : a'.Padding = 0 := by rw [← ha']; decide
  have hcol : a'.Color = ⟨1, 1, 1, 255⟩ := by rw [← ha']; decide
  have hbg : a'.BGColor = ⟨1, 1, 1, 255⟩ := by rw [← ha']; decide
  refine ⟨a', m, hm, ?_⟩
  have hp := hpix 0 0 (by decide) (by decide) (by decide) (by decide)
  have hpx : m.NRGBAAt 0 0 = a'.Color := by
    rw [hp, hcol, hbg]
    exact ite_self _
  intro hiff
  obtain ⟨i, j, _, h1, h2, _⟩ := hiff.mp hpx
  rw [hpad] at h1 h2
  norm_num at h1 h2

/-- C5 (the code at the failing input): with size 50 and padding 10 `init`
leaves a pixel padding of 0, not 5, and with size 320 and padding 10 it leaves
30, not 32: the division `Size / 100` is done before the multiplication. -/
theorem C5_padding_conversion_fails :
    (∃ a', Avatar.init (fun s => s) ⟨[], 50, 10, ⟨0, 0, 0, 0⟩, ⟨0, 0, 0, 0⟩, palette.zero⟩ =
        some (a', none) ∧ a'.Padding = 0 ∧ (10 * 50 : Int) / 100 = 5) ∧
    (∃ a', Avatar.init (fun s => s) ⟨[], 320, 10, ⟨0, 0, 0, 0⟩, ⟨0, 0, 0, 0⟩, palette.zero⟩ =
        some (a', none) ∧ a'.Padding = 30 ∧ (10 * 320 : Int) / 100 = 32) :=
  ⟨⟨_, init_eq _ _ (by decide), by decide, by decide⟩,
   ⟨_, init_eq _ _ (by decide), by decide, by decide⟩⟩



/-- C6: for every text, every `Size >= 1` and every colour setting, `Create`
with a padding below 0 returns what `Create` with padding 0 returns (the same
image, the same avatar state, no error), and with a padding above 10 what
`Create` with padding 10 returns; whatever the padding, no error is returned. -/
theorem C6_padding_clamp (ul : List Byte → List Byte) (a : Avatar) (p : Int)
    (h : 1 ≤ a.Size) :
    (p < 0 → Avatar.Create ul { a with Padding := p } =
      Avatar.Create ul { a with Padding := 0 }) ∧
    (10 < p → Avatar.Create ul { a with Padding := p } =
      Avatar.Create ul { a with Padding := 10 }) ∧
    (∃ a' m, Avatar.Create ul { a with Padding := p } = some (a', some m, none)) := by
  have hcreate : ∀ b c : Avatar, b.init ul = c.init ul → b.Create ul = c.Create ul := by
    intro b c hbc
    unfold Avatar.Create
    rw [hbc]
  refine ⟨fun hp => hcreate _ _ ?_, fun hp => hcreate _ _ ?_, ?_⟩
  · rw [init_eq ul { a with Padding := p } h, init_eq ul { a with Padding := 0 } h]
    simp [hp]
  · rw [init_eq ul { a with Padding := p } h, init_eq ul { a with Padding := 10 } h]
    have : ¬ p < 0 := by omega
    simp [this, hp]
  · obtain ⟨a', m, _, hm, _⟩ := Create_spec ul { a with Padding := p } h
    exact ⟨a', m, hm⟩

/-- Witness of C6: the empty text with size 320 and the paddings -3 and 11. -/
theorem C6_padding_clamp_witness :
    Avatar.Create (fun s => s) ⟨[], 320, -3, ⟨0, 0, 0, 0⟩, ⟨0, 0, 0, 0⟩, palette.zero⟩ =
      Avatar.Create (fun s => s) ⟨[], 320, 0, ⟨0, 0, 0, 0⟩, ⟨0, 0, 0, 0⟩, palette.zero⟩ ∧
    Avatar.Create (fun s => s) ⟨[], 320, 11, ⟨0, 0, 0, 0⟩, ⟨0, 0, 0, 0⟩, palette.zero⟩ =
      Avatar.Create (fun s => s) ⟨[], 320, 10, ⟨0, 0, 0, 0⟩, ⟨0, 0, 0, 0⟩, palette.zero⟩ :=
  ⟨(C6_padding_clamp (fun s => s) ⟨[], 320, 7, ⟨0, 0, 0, 0⟩, ⟨0, 0, 0, 0⟩, palette.zero⟩ (-3)
      (by decide)).1 (by decide),
   (C6_padding_clamp (fun s => s) ⟨[], 320, 7, ⟨0, 0, 0, 0⟩, ⟨0, 0, 0, 0⟩, palette.zero⟩ 11
      (by decide)).2.1 (by decide)⟩

/-- C7: for every avatar with `Size >= 1`, after `init` the background colour
is `NRGBA{0xed,0xed,0xed,0xff}` if `BGColor` was the zero value (and the given
`BGColor` otherwise), and the foreground colour is `NRGBA{d[0],d[1],d[2],0xff}`,
`d` the SHA-1 digest of the lower-cased text, if `Color` was the zero value (and
the given `Color` otherwise): each default is resolved from its own field only.
The rendered image has the resolved foreground colour in the squares of the
true palette cells and the resolved background colour elsewhere. -/
theorem C7_default_colours (ul : List Byte → List Byte) (a : Avatar) (h : 1 ≤ a.Size) :
    ∃ a' m d0 d1 d2, a.init ul = some (a', none) ∧ a.Create ul = some (a', some m, none) ∧
      (sha1.Sum (ToLower ul a.Text))[0]? = some d0 ∧
      (sha1.Sum (ToLower ul a.Text))[1]? = some d1 ∧
      (sha1.Sum (ToLower ul a.Text))[2]? = some d2 ∧
      a'.BGColor = (if a.BGColor = ⟨0, 0, 0, 0⟩ then ⟨0xed, 0xed, 0xed, 0xff⟩ else a.BGColor) ∧
      a'.Color = (if a.Color = ⟨0, 0, 0, 0⟩ then ⟨d0, d1, d2, 0xff⟩ else a.Color) ∧
      let mn := a'.Padding + (a.Size - 2 * a'.Padding) % 5 / 2
      let bs := (a.Size - 2 * mn) / 5
      ∀ x y, 0 ≤ x → x < a.Size → 0 ≤ y → y < a.Size →
        m.NRGBAAt x y =
          if ∃ i j : Fin nblock, a'.palette.cell i j = true ∧
            mn + j.val * bs ≤ x ∧ x < mn + (j.val + 1) * bs ∧
            mn + i.val * bs ≤ y ∧ y < mn + (i.val + 1) * bs
          then a'.Color else a'.BGColor := by
  obtain ⟨a', m, hi, hm, _, _, _, _, hpix⟩ := Create_spec ul a h
  have he := init_eq ul a h
  rw [he] at hi
  have ha' := (Prod.mk.inj (Option.some.inj hi)).1
  have hlen := sha1_Sum_length (ToLower ul a.Text)
  refine ⟨a', m, (sha1.Sum (ToLower ul a.Text)).getD 0 0, (sha1.Sum (ToLower ul a.Text)).getD 1 0,
    (sha1.Sum (ToLower ul a.Text)).getD 2 0, by rw [he, ha'], hm, ?_, ?_, ?_, ?_, ?_, hpix⟩
  · rw [List.getD_eq_getElem?_getD, List.getElem?_eq_getElem (by omega)]; rfl
  · rw [List.getD_eq_getElem?_getD, List.getElem?_eq_getElem (by omega)]; rfl
  · rw [List.getD_eq_getElem?_getD, List.getElem?_eq_getElem (by omega)]; rfl
  · rw [← ha']; rfl
  · rw [← ha']

set_option maxRecDepth 100000 in
/-- Witness of C7: the text "sometext" with size 320, padding 10 and no colour. -/
theorem C7_default_colours_witness :
    ∃ a', Avatar.init (fun s => s) ⟨[0x73, 0x6f, 0x6d, 0x65, 0x74, 0x65, 0x78, 0x74], 320, 10,
        ⟨0, 0, 0, 0⟩, ⟨0, 0, 0, 0⟩, palette.zero⟩ = some (a', none) ∧
      a'.BGColor = ⟨0xed, 0xed, 0xed, 0xff⟩ ∧ a'.Color = ⟨210, 42, 21, 0xff⟩ :=
  let ⟨a', _, d0, d1, d2, h1, _, e0, e1, e2, hb, hc, _⟩ := C7_default_colours (fun s => s)
    ⟨[0x73, 0x6f, 0x6d, 0x65, 0x74, 0x65, 0x78, 0x74], 320, 10, ⟨0, 0, 0, 0⟩, ⟨0, 0, 0, 0⟩,
      palette.zero⟩ (by decide)
  ⟨a', h1, hb, by
    have f0 : d0 = 210 := Option.some.inj (e0.symm.trans (by decide))
    have f1 : d1 = 42 := Option.some.inj (e1.symm.trans (by decide))
    have f2 : d2 = 21 := Option.some.inj (e2.symm.trans (by decide))
    rw [hc, f0, f1, f2]
    rfl⟩

/-- C8: for every avatar with `Size >= 1` whose `BGColor` and `Color` are both
different from the zero value, `Create` leaves `BGColor` and `Color` as
supplied and every pixel of the returned image is the supplied `BGColor` or the
supplied `Color`, whatever the text. -/
theorem C8_colour_precedence (ul : List Byte → List Byte) (a : Avatar) (h : 1 ≤ a.Size)
    (hb : a.BGColor ≠ ⟨0, 0, 0, 0⟩) (hc : a.Color ≠ ⟨0, 0, 0, 0⟩) :
    ∃ a' m, a.Create ul = some (a', some m, none) ∧
      m.Rect = ⟨⟨0, 0⟩, ⟨a.Size, a.Size⟩⟩ ∧
      a'.BGColor = a.BGColor ∧ a'.Color = a.Color ∧
      ∀ x y, 0 ≤ x → x < a.Size → 0 ≤ y → y < a.Size →
        m.NRGBAAt x y = a.BGColor ∨ m.NRGBAAt x y = a.Color := by
  obtain ⟨a', m, hi, hm, _, _, _, hr, hpix⟩ := Create_spec ul a h
  have he := init_eq ul a h
  rw [he] at hi
  have ha' := (Prod.mk.inj (Option.some.inj hi)).1
  have hbg : a'.BGColor = a.BGColor := by rw [← ha']; exact if_neg hb
  have hcol : a'.Color = a.Color := by rw [← ha']; exact if_neg hc
  refine ⟨a', m, hm, hr, hbg, hcol, fun x y hx0 hx1 hy0 hy1 => ?_⟩
  rw [hpix x y hx0 hx1 hy0 hy1, hbg, hcol]
  split
  · exact Or.inr rfl
  · exact Or.inl rfl

/-- Witness of C8: white on dark blue for the text "sometext", size 25. -/
theorem C8_colour_precedence_witness :
    ∃ a' m, Avatar.Create (fun s => s) ⟨[0x73, 0x6f, 0x6d, 0x65, 0x74, 0x65, 0x78, 0x74], 25, 0,
        ⟨0, 0, 0x80, 0xff⟩, ⟨0xff, 0xff, 0xff, 0xff⟩, palette.zero⟩ = some (a', some m, none) ∧
      m.Rect = ⟨⟨0, 0⟩, ⟨25, 25⟩⟩ ∧
      a'.BGColor = ⟨0, 0, 0x80, 0xff⟩ ∧ a'.Color = ⟨0xff, 0xff, 0xff, 0xff⟩ ∧
      ∀ x y, 0 ≤ x → x < 25 → 0 ≤ y → y < 25 →
        m.NRGBAAt x y = ⟨0, 0, 0x80, 0xff⟩ ∨ m.NRGBAAt x y = ⟨0xff, 0xff, 0xff, 0xff⟩ :=
  C8_colour_precedence (fun s => s) ⟨[0x73, 0x6f, 0x6d, 0x65, 0x74, 0x65, 0x78, 0x74], 25, 0,
    ⟨0, 0, 0x80, 0xff⟩, ⟨0xff, 0xff, 0xff, 0xff⟩, palette.zero⟩ (by decide) (by decide)
    (by decide)



/-- C9: two avatars whose texts have equal lower-casings (in particular equal
texts, or "Alice" and "alice") and that have the same size, padding and
colours either both fail in `Create`, with the same error, or both succeed with
the same palette, the same resolved colours and the same image, pixel for
pixel. -/
theorem C9_determinism (ul : List Byte → List Byte) (a1 a2 : Avatar)
    (hT : ToLower ul a1.Text = ToLower ul a2.Text) (hS : a1.Size = a2.Size)
    (hP : a1.Padding = a2.Padding) (hB : a1.BGColor = a2.BGColor)
    (hC : a1.Color = a2.Color) :
    (a1.Size < 1 → ∃ e, a1.Create ul = some (a1, none, some e) ∧
      a2.Create ul = some (a2, none, some e)) ∧
    (1 ≤ a1.Size → ∃ a1' a2' m, a1.Create ul = some (a1', some m, none) ∧
      a2.Create ul = some (a2', some m, none) ∧ a1'.palette = a2'.palette ∧
      a1'.Color = a2'.Color ∧ a1'.BGColor = a2'.BGColor ∧
      a1'.Padding = a2'.Padding ∧ a1'.Size = a2'.Size) := by
  refine ⟨fun h => ⟨_, Create_invalid ul a1 h, Create_invalid ul a2 (by omega)⟩, fun h => ?_⟩
  have h2 : 1 ≤ a2.Size := by omega
  obtain ⟨a1', m1, hi1, hm1, _⟩ := Create_spec ul a1 h
  obtain ⟨a2', m2, hi2, hm2, _⟩ := Create_spec ul a2 h2
  have he1 := init_eq ul a1 h
  have he2 := init_eq ul a2 h2
  rw [hi1] at he1
  rw [hi2] at he2
  have e1 := (Prod.mk.inj (Option.some.inj he1)).1
  have e2 := (Prod.mk.inj (Option.some.inj he2)).1
  have hpal : a1'.palette = a2'.palette := by rw [e1, e2, hT]
  have hcol : a1'.Color = a2'.Color := by rw [e1, e2, hT, hC]
  have hbg : a1'.BGColor = a2'.BGColor := by rw [e1, e2, hB]
  have hpad : a1'.Padding = a2'.Padding := by rw [e1, e2, hP, hS]
  have hsz : a1'.Size = a2'.Size := by rw [e1, e2, hS]
  have hc := Create_congr ul a1 a2 a1' a2' hi1 hi2 hsz hpad hbg hcol hpal
  rw [hm1, hm2] at hc
  have hm : m1 = m2 := by
    simpa using hc
  subst hm
  exact ⟨a1', a2', m1, hm1, hm2, hpal, hcol, hbg, hpad, hsz⟩

/-- Witness of C9: the texts "Alice" and "alice" with size 50 and padding 10. -/
theorem C9_determinism_witness :
    ∃ a1' a2' m,
      Avatar.Create (fun s => s) ⟨[0x41, 0x6c, 0x69, 0x63, 0x65], 50, 10, ⟨0, 0, 0, 0⟩,
        ⟨0, 0, 0, 0⟩, palette.zero⟩ = some (a1', some m, none) ∧
      Avatar.Create (fun s => s) ⟨[0x61, 0x6c, 0x69, 0x63, 0x65], 50, 10, ⟨0, 0, 0, 0⟩,
        ⟨0, 0, 0, 0⟩, palette.zero⟩ = some (a2', some m, none) ∧
      a1'.palette = a2'.palette ∧ a1'.Color = a2'.Color ∧ a1'.BGColor = a2'.BGColor ∧
      a1'.Padding = a2'.Padding ∧ a1'.Size = a2'.Size :=
  (C9_determinism (fun s => s)
    ⟨[0x41, 0x6c, 0x69, 0x63, 0x65], 50, 10, ⟨0, 0, 0, 0⟩, ⟨0, 0, 0, 0⟩, palette.zero⟩
    ⟨[0x61, 0x6c, 0x69, 0x63, 0x65], 50, 10, ⟨0, 0, 0, 0⟩, ⟨0, 0, 0, 0⟩, palette.zero⟩
    rfl rfl rfl rfl rfl).2 (by decide)

/-- C10: for every `Size >= 1` and every pixel padding `pad = c * (Size / 100)`
with `0 <= c <= 10`, as `init` produces it, `Size - 2*pad >= 0` and
`alignCenter(Size, pad)` is the square with minimum coordinate
`mn = pad + ((Size - 2*pad) mod 5) / 2` and maximum coordinate `Size - mn` on
both axes, with `0 <= mn <= Size - mn <= Size`. -/
theorem C10_drawable_region (size c : Int) (h1 : 1 ≤ size) (h2 : 0 ≤ c) (h3 : c ≤ 10) :
    let pad := c * Int.tdiv size 100
    let mn := pad + (size - 2 * pad) % 5 / 2
    0 ≤ size - 2 * pad ∧
    alignCenter size pad = ⟨⟨mn, mn⟩, ⟨size - mn, size - mn⟩⟩ ∧
    0 ≤ mn ∧ mn ≤ size - mn ∧ size - mn ≤ size ∧
    (∀ (ul : List Byte → List Byte) (a : Avatar), a.Size = size →
      ∃ a' k, a.init ul = some (a', none) ∧ 0 ≤ k ∧ k ≤ 10 ∧
        a'.Padding = k * Int.tdiv size 100) := by
  intro pad mn
  have hq : Int.tdiv size 100 = size / 100 := Int.tdiv_eq_ediv (by omega) (by omega)
  have hq0 : 0 ≤ size / 100 := Int.ediv_nonneg (by omega) (by omega)
  have hq1 : 100 * (size / 100) ≤ size := Int.mul_ediv_self_le (by omega)
  have hp0 : 0 ≤ pad := by
    show 0 ≤ c * Int.tdiv size 100
    rw [hq]
    exact Int.mul_nonneg h2 hq0
  have hp1 : pad ≤ 10 * (size / 100) := by
    show c * Int.tdiv size 100 ≤ 10 * (size / 100)
    rw [hq]
    exact Int.mul_le_mul_of_nonneg_right h3 hq0
  have hp2 : 2 * pad ≤ size := by omega
  have hmn : mn = pad + (size - 2 * pad) % 5 / 2 := rfl
  refine ⟨by omega, alignCenter_eq size pad hp2, by omega, by omega, by omega, ?_⟩
  intro ul a ha
  subst ha
  refine ⟨_, (if a.Padding < 0 then 0 else if a.Padding > 10 then 10 else a.Padding),
    init_eq ul a h1, ?_, ?_, rfl⟩
  · split_ifs <;> omega
  · split_ifs <;> omega

/-- Witness of C10: size 320 with padding factor 10 gives pad 30 and the square
`(30,30)-(290,290)`. -/
theorem C10_drawable_region_witness :
    alignCenter 320 (10 * Int.tdiv 320 100) = ⟨⟨30, 30⟩, ⟨290, 290⟩⟩ :=
  (C10_drawable_region 320 10 (by decide) (by decide) (by decide)).2.1



/-! ## The command line -/

set_option maxRecDepth 100000 in
/-- The digits below 16 of `ParseUint` are the hexadecimal digits. -/
theorem digit_hexValue : ∀ c : Byte,
    (match ParseUint.digit c with
      | some d => if d < 16 then some d else none
      | none => none) = hexValue c := by
  decide

set_option maxRecDepth 100000 in
/-- A hexadecimal digit is below 16. -/
theorem hexValue_lt : ∀ c : Byte, ∀ v, hexValue c = some v → v < 16 := by
  decide

/-- Two bytes read by `ParseUint` in base 16 with 8 bits. -/
theorem ParseUint_pair (a b : Byte) :
    ParseUint [a, b] 16 8 =
      match hexValue a, hexValue b with
      | some x, some y => (16 * x + y, none)
      | _, _ => (0, some "invalid syntax") := by
  have ha := digit_hexValue a
  have hb := digit_hexValue b
  have la := hexValue_lt a
  have lb := hexValue_lt b
  unfold ParseUint
  simp only [List.cons_ne_nil, if_false, ParseUint.loop]
  cases hda : ParseUint.digit a with
  | none =>
    rw [hda] at ha
    simp only at ha
    rw [← ha]
  | some x =>
    rw [hda] at ha
    simp only at ha
    by_cases hx : x < 16
    · rw [if_pos hx] at ha
      rw [← ha]
      have hx1 : ¬ x ≥ 16 := by omega
      simp only [hx1, if_false]
      norm_num
      have hx2 : ¬ (18446744073709551616 ≤ x ∨ 255 < x) := by omega
      simp only [hx2, if_false]
      cases hdb : ParseUint.digit b with
      | none =>
        rw [hdb] at hb
        simp only at hb
        rw [← hb]
      | some y =>
        rw [hdb] at hb
        simp only at hb
        by_cases hy : y < 16
        · rw [if_pos hy] at hb
          rw [← hb]
          have hy1 : ¬ 16 ≤ y := by omega
          have hy2 : ¬ 1152921504606846976 ≤ x := by omega
          have hy3 : ¬ (18446744073709551616 ≤ x * 16 + y ∨ 255 < x * 16 + y) := by omega
          simp only [hy1, hy2, hy3, if_false]
          simp only [Prod.mk.injEq, and_true]
          omega
        · rw [if_neg hy] at hb
          rw [← hb]
          have hy1 : 16 ≤ y := by omega
          simp only [hy1, if_true]
    · rw [if_neg hx] at ha
      rw [← ha]
      have hx1 : x ≥ 16 := by omega
      simp only [hx1, if_true]



/-- The result of `parseColor` on a string of six bytes. -/
theorem parseColor_six (c0 c1 c2 c3 c4 c5 : Byte) :
    parseColor [c0, c1, c2, c3, c4, c5] =
      match hexValue c0, hexValue c1, hexValue c2, hexValue c3, hexValue c4, hexValue c5 with
      | some x0, some x1, some x2, some x3, some x4, some x5 =>
        some (⟨Fin.ofNat (16 * x0 + x1), Fin.ofNat (16 * x2 + x3), Fin.ofNat (16 * x4 + x5), 255⟩,
          none)
      | _, _, _, _, _, _ => some (⟨0, 0, 0, 0⟩, some "invalid syntax") := by
  have s0 : slice [c0, c1, c2, c3, c4, c5] 0 (0 + 2) = some [c0, c1] := rfl
  have s2 : slice [c0, c1, c2, c3, c4, c5] 2 (2 + 2) = some [c2, c3] := rfl
  have s4 : slice [c0, c1, c2, c3, c4, c5] 4 (4 + 2) = some [c4, c5] := rfl
  unfold parseColor
  simp only [List.cons_ne_nil, if_false, List.length_cons, List.length_nil, ne_eq,
    not_true_eq_false, List.foldlM_cons, List.foldlM_nil, s0, s2, s4, ParseUint_pair,
    Option.bind_eq_bind, Option.some_bind, Option.pure_def, bind_pure]
  cases hexValue c0 <;> cases hexValue c1 <;> cases hexValue c2 <;> cases hexValue c3 <;>
    cases hexValue c4 <;> cases hexValue c5 <;> rfl



/-- The result of `parseColor` on a non-empty string that does not have six bytes. -/
theorem parseColor_length (c : List Byte) (h0 : c ≠ []) (h6 : c.length ≠ 6) :
    parseColor c = some (⟨0, 0, 0, 0⟩, some "color must have 6 digits") := by
  unfold parseColor
  simp only [h0, if_false, ne_eq, h6, not_false_eq_true, if_true]

/-- The function `main` exits with the error of `parseColor` for the background
colour, whatever the other arguments. -/
theorem main_bg_error (ul : List Byte → List Byte) (text : List Byte) (size padding : Int)
    (bgColor colorVar : List Byte) (ht : text ≠ []) (z : NRGBA) (e : String)
    (h : parseColor bgColor = some (z, some e)) :
    main ul text size padding bgColor colorVar = some (Outcome.exit e) := by
  unfold main
  simp only [ht, if_false, h, Option.bind_eq_bind, Option.some_bind, Option.pure_def]

/-- The function `main` exits with the error of `parseColor` for the foreground
colour when the background colour is well formed. -/
theorem main_fg_error (ul : List Byte → List Byte) (text : List Byte) (size padding : Int)
    (bgColor colorVar : List Byte) (ht : text ≠ []) (bg z : NRGBA) (e : String)
    (hb : parseColor bgColor = some (bg, none))
    (h : parseColor colorVar = some (z, some e)) :
    main ul text size padding bgColor colorVar = some (Outcome.exit e) := by
  unfold main
  simp only [ht, if_false, hb, h, Option.bind_eq_bind, Option.some_bind, Option.pure_def]

/-- With two well-formed colours `main` returns what `Create` makes of the new
avatar with these colours. -/
theorem main_created (ul : List Byte → List Byte) (text : List Byte) (size padding : Int)
    (bgColor colorVar : List Byte) (ht : text ≠ []) (bg c : NRGBA) (a' : Avatar) (m : Image)
    (hb : parseColor bgColor = some (bg, none)) (hc : parseColor colorVar = some (c, none))
    (hm : Avatar.Create ul ⟨text, size, padding, bg, c, palette.zero⟩ = some (a', some m, none)) :
    main ul text size padding bgColor colorVar = some (Outcome.created a' m) := by
  unfold main
  simp only [ht, if_false, hb, hc, NewAvatar, hm, Option.bind_eq_bind, Option.some_bind,
    Option.pure_def]

/-- C12: `parseColor` returns the zero colour and no error for the empty
string; `NRGBA{r, g, b, 255}` and no error for a string of exactly six
hexadecimal digits of either case, `r`, `g` and `b` the values of the first,
second and third pair of digits; and an error with the zero colour for every
other string, that is every non-empty string whose length in bytes is not 6 or
that has a byte which is not a hexadecimal digit.  On such an error `main`
exits with it, whatever the size, before `Create` is called. -/
theorem C12_parseColor (c : List Byte) :
    (c = [] → parseColor c = some (⟨0, 0, 0, 0⟩, none)) ∧
    (∀ c0 c1 c2 c3 c4 c5 x0 x1 x2 x3 x4 x5, c = [c0, c1, c2, c3, c4, c5] →
      hexValue c0 = some x0 → hexValue c1 = some x1 → hexValue c2 = some x2 →
      hexValue c3 = some x3 → hexValue c4 = some x4 → hexValue c5 = some x5 →
      ∃ r g b : Byte, r.val = 16 * x0 + x1 ∧ g.val = 16 * x2 + x3 ∧ b.val = 16 * x4 + x5 ∧
        parseColor c = some (⟨r, g, b, 255⟩, none)) ∧
    (c ≠ [] → (c.length ≠ 6 ∨ ∃ b ∈ c, hexValue b = none) →
      ∃ e, parseColor c = some (⟨0, 0, 0, 0⟩, some e) ∧
        ∀ (ul : List Byte → List Byte) (text : List Byte) (size padding : Int)
          (other : List Byte), text ≠ [] →
          main ul text size padding c other = some (Outcome.exit e) ∧
          (∀ bg, parseColor other = some (bg, none) →
            main ul text size padding other c = some (Outcome.exit e))) := by
  refine ⟨?_, ?_, ?_⟩
  · intro h
    subst h
    rfl
  · intro c0 c1 c2 c3 c4 c5 x0 x1 x2 x3 x4 x5 hc h0 h1 h2 h3 h4 h5
    subst hc
    have l0 := hexValue_lt c0 x0 h0
    have l1 := hexValue_lt c1 x1 h1
    have l2 := hexValue_lt c2 x2 h2
    have l3 := hexValue_lt c3 x3 h3
    have l4 := hexValue_lt c4 x4 h4
    have l5 := hexValue_lt c5 x5 h5
    refine ⟨Fin.ofNat (16 * x0 + x1), Fin.ofNat (16 * x2 + x3), Fin.ofNat (16 * x4 + x5),
      ?_, ?_, ?_, ?_⟩
    · show (16 * x0 + x1) % 256 = 16 * x0 + x1
      omega
    · show (16 * x2 + x3) % 256 = 16 * x2 + x3
      omega
    · show (16 * x4 + x5) % 256 = 16 * x4 + x5
      omega
    · rw [parseColor_six, h0, h1, h2, h3, h4, h5]
  · intro hne hbad
    have key : ∃ e, parseColor c = some (⟨0, 0, 0, 0⟩, some e) := by
      by_cases h6 : c.length = 6
      · match c, h6 with
        | [c0, c1, c2, c3, c4, c5], _ =>
          rcases hbad with hlen | ⟨b, hb, hv⟩
          · exact absurd rfl hlen
          · refine ⟨"invalid syntax", ?_⟩
            rw [parseColor_six]
            simp only [List.mem_cons, List.mem_singleton, List.not_mem_nil, or_false] at hb
            rcases hb with h | h | h | h | h | h <;> rw [h] at hv <;> simp only [hv] <;>
              cases hexValue c0 <;> cases hexValue c1 <;> cases hexValue c2 <;>
              cases hexValue c3 <;> cases hexValue c4 <;> cases hexValue c5 <;> rfl
      · exact ⟨_, parseColor_length c hne h6⟩
    obtain ⟨e, he⟩ := key
    refine ⟨e, he, fun ul text size padding other ht => ⟨?_, fun bg hbg => ?_⟩⟩
    · exact main_bg_error ul text size padding c other ht _ e he
    · exact main_fg_error ul text size padding other c ht bg _ e hbg he

/-- Witness of C12: "ffAa90" is `NRGBA{255, 170, 144, 255}`, and "ffAa9g" and
"fff" are rejected. -/
theorem C12_parseColor_witness :
    (∃ r g b : Byte, r.val = 16 * 15 + 15 ∧ g.val = 16 * 10 + 10 ∧ b.val = 16 * 9 + 0 ∧
      parseColor [0x66, 0x66, 0x41, 0x61, 0x39, 0x30] = some (⟨r, g, b, 255⟩, none)) ∧
    (∃ e, parseColor [0x66, 0x66, 0x41, 0x61, 0x39, 0x67] = some (⟨0, 0, 0, 0⟩, some e)) ∧
    (∃ e, parseColor [0x66, 0x66, 0x66] = some (⟨0, 0, 0, 0⟩, some e)) :=
  ⟨(C12_parseColor [0x66, 0x66, 0x41, 0x61, 0x39, 0x30]).2.1 _ _ _ _ _ _ 15 15 10 10 9 0 rfl
      (by decide) (by decide) (by decide) (by decide) (by decide) (by decide),
   let ⟨e, he, _⟩ := (C12_parseColor [0x66, 0x66, 0x41, 0x61, 0x39, 0x67]).2.2 (by decide)
      (Or.inr ⟨0x67, by decide, by decide⟩)
   ⟨e, he⟩,
   let ⟨e, he, _⟩ := (C12_parseColor [0x66, 0x66, 0x66]).2.2 (by decide) (Or.inl (by decide))
   ⟨e, he⟩⟩



/-! ## Further facts about init and the geometry -/

/-- The fields of the avatar that a successful `init` leaves. -/
theorem init_fields (ul : List Byte → List Byte) (a a' : Avatar) (h : 1 ≤ a.Size)
    (hi : a.init ul = some (a', none)) :
    a'.Text = a.Text ∧ a'.Size = a.Size ∧
    a'.Padding = (if a.Padding < 0 then 0 else if a.Padding > 10 then 10 else a.Padding) *
      Int.tdiv a.Size 100 ∧
    a'.BGColor = (if a.BGColor = ⟨0, 0, 0, 0⟩ then DefaultBG else a.BGColor) ∧
    a'.Color = (if a.Color = ⟨0, 0, 0, 0⟩ then
        ⟨(sha1.Sum (ToLower ul a.Text)).getD 0 0, (sha1.Sum (ToLower ul a.Text)).getD 1 0,
         (sha1.Sum (ToLower ul a.Text)).getD 2 0, 0xff⟩
      else a.Color) ∧
    ∀ r c : Fin nblock, a'.palette.cell r c = (((sha1.Sum (ToLower ul a.Text)).getD
      (3 + (3 * r.val + min c.val (4 - c.val))) 0).val % 2 == 0) := by
  rw [init_eq ul a h] at hi
  have e := (Prod.mk.inj (Option.some.inj hi)).1
  subst e
  exact ⟨rfl, rfl, rfl, rfl, rfl, fun _ _ => rfl⟩

/-- The palette that `init` leaves is horizontally symmetric. -/
theorem init_palette_symm (ul : List Byte → List Byte) (a a' : Avatar) (h : 1 ≤ a.Size)
    (hi : a.init ul = some (a', none)) (r c c2 : Fin nblock) (hc : c2.val = 4 - c.val) :
    a'.palette.cell r c2 = a'.palette.cell r c := by
  obtain ⟨_, _, _, _, _, hp⟩ := init_fields ul a a' h hi
  have hn : nblock = 5 := rfl
  have := c.isLt
  rw [hp, hp]
  have e : min c2.val (4 - c2.val) = min c.val (4 - c.val) := by omega
  rw [e]

/-- Block size and slack of the drawable region in terms of `d = size - 2 * pad`. -/
theorem geometry_facts (size pad : Int) (h0 : 0 ≤ pad) (h1 : 2 * pad ≤ size) :
    (size - 2 * (pad + (size - 2 * pad) % 5 / 2)) / 5 = (size - 2 * pad) / 5 ∧
    0 ≤ (size - 2 * pad) / 5 ∧
    0 ≤ pad + (size - 2 * pad) % 5 / 2 ∧
    (pad + (size - 2 * pad) % 5 / 2) + 5 * ((size - 2 * pad) / 5) + (size - 2 * pad) % 5 % 2 =
      size - (pad + (size - 2 * pad) % 5 / 2) := by
  omega

set_option maxRecDepth 100000 in
/-- SHA-1 of "sometext". -/
theorem sha1_Sum_sometext (ul : List Byte → List Byte) :
    sha1.Sum (ToLower ul [0x73, 0x6f, 0x6d, 0x65, 0x74, 0x65, 0x78, 0x74]) =
      [210, 42, 21, 140, 142, 173, 153, 219, 215, 237, 219, 134, 16, 68, 150, 243, 238, 8,
       112, 73] := by
  have h : ToLower ul [0x73, 0x6f, 0x6d, 0x65, 0x74, 0x65, 0x78, 0x74] =
      [0x73, 0x6f, 0x6d, 0x65, 0x74, 0x65, 0x78, 0x74] := rfl
  rw [h]
  decide



/-- `Create` is determined by what `init` returns. -/
theorem Create_of_init_eq (ul : List Byte → List Byte) (b c : Avatar)
    (h : b.init ul = c.init ul) : b.Create ul = c.Create ul := by
  unfold Avatar.Create
  rw [h]

/-- C14 (as amended): a successful `Create` changes neither `Text` nor `Size`,
and leaves `BGColor` and `Color` as supplied when they are not the zero value;
an unset `BGColor` is replaced by `DefaultBG` and an unset `Color` by the colour
`NRGBA{d[0], d[1], d[2], 0xff}` of the digest `d` of the lower-cased text, which
is not the zero value; `Padding` holds the pixel padding
`clamp(Padding, 0, 10) * (Size / 100)` after the call. -/
theorem C14_frame (ul : List Byte → List Byte) (a : Avatar) (h : 1 ≤ a.Size) :
    ∃ a' m, a.Create ul = some (a', some m, none) ∧
      a'.Text = a.Text ∧ a'.Size = a.Size ∧
      a'.Padding = (if a.Padding < 0 then 0 else if a.Padding > 10 then 10 else a.Padding) *
        Int.tdiv a.Size 100 ∧
      (a.BGColor ≠ ⟨0, 0, 0, 0⟩ → a'.BGColor = a.BGColor) ∧
      (a.Color ≠ ⟨0, 0, 0, 0⟩ → a'.Color = a.Color) ∧
      (a.BGColor = ⟨0, 0, 0, 0⟩ → a'.BGColor = ⟨0xed, 0xed, 0xed, 0xff⟩ ∧
        a'.BGColor ≠ a.BGColor) ∧
      (a.Color = ⟨0, 0, 0, 0⟩ → ∃ d0 d1 d2,
        (sha1.Sum (ToLower ul a.Text))[0]? = some d0 ∧
        (sha1.Sum (ToLower ul a.Text))[1]? = some d1 ∧
        (sha1.Sum (ToLower ul a.Text))[2]? = some d2 ∧
        a'.Color = ⟨d0, d1, d2, 0xff⟩ ∧ a'.Color ≠ a.Color) := by
  obtain ⟨a', m, hi, hm, _⟩ := Create_spec ul a h
  obtain ⟨f1, f2, f3, f4, f5, _⟩ := init_fields ul a a' h hi
  have hlen := sha1_Sum_length (ToLower ul a.Text)
  refine ⟨a', m, hm, f1, f2, f3, fun hb => ?_, fun hc => ?_, fun hb => ?_, fun hc => ?_⟩
  · rw [f4, if_neg hb]
  · rw [f5, if_neg hc]
  · rw [f4, if_pos hb, hb]
    exact ⟨rfl, by decide⟩
  · refine ⟨(sha1.Sum (ToLower ul a.Text)).getD 0 0, (sha1.Sum (ToLower ul a.Text)).getD 1 0,
      (sha1.Sum (ToLower ul a.Text)).getD 2 0, ?_, ?_, ?_, ?_, ?_⟩
    · rw [List.getD_eq_getElem?_getD, List.getElem?_eq_getElem (by omega)]; rfl
    · rw [List.getD_eq_getElem?_getD, List.getElem?_eq_getElem (by omega)]; rfl
    · rw [List.getD_eq_getElem?_getD, List.getElem?_eq_getElem (by omega)]; rfl
    · rw [f5, if_pos hc]
    · rw [f5, if_pos hc, hc]
      intro he
      have hA : (0xff : Byte) = 0 := congrArg NRGBA.A he
      exact absurd hA (by decide)

/-- Witness of C14: explicit colours are kept, and the padding 10 of a size of
320 becomes 30. -/
theorem C14_frame_witness :
    ∃ a' m, Avatar.Create (fun s => s)
        ⟨[0x61], 320, 10, ⟨0, 0, 0x80, 0xff⟩, ⟨0xff, 0xff, 0xff, 0xff⟩, palette.zero⟩ =
        some (a', some m, none) ∧
      a'.Text = [0x61] ∧ a'.Size = 320 ∧ a'.Padding = 30 ∧
      a'.BGColor = ⟨0, 0, 0x80, 0xff⟩ ∧ a'.Color = ⟨0xff, 0xff, 0xff, 0xff⟩ :=
  let ⟨a', m, h1, h2, h3, h4, h5, h6, _⟩ := C14_frame (fun s => s)
    ⟨[0x61], 320, 10, ⟨0, 0, 0x80, 0xff⟩, ⟨0xff, 0xff, 0xff, 0xff⟩, palette.zero⟩ (by decide)
  ⟨a', m, h1, h2, h3, h4.trans (by decide), h5 (by decide), h6 (by decide)⟩

/-- Counterexample to C14 as stated: with both colours unset, `Create` changes
`BGColor` and `Color`. -/
theorem C14_counterexample :
    ∃ a' m, Avatar.Create (fun s => s)
        ⟨[0x61], 25, 0, ⟨0, 0, 0, 0⟩, ⟨0, 0, 0, 0⟩, palette.zero⟩ = some (a', some m, none) ∧
      a'.BGColor ≠ ⟨0, 0, 0, 0⟩ ∧ a'.Color ≠ ⟨0, 0, 0, 0⟩ := by
  obtain ⟨a', m, hi, hm, _⟩ := Create_spec (fun s => s)
    ⟨[0x61], 25, 0, ⟨0, 0, 0, 0⟩, ⟨0, 0, 0, 0⟩, palette.zero⟩ (by decide)
  obtain ⟨_, _, _, f4, f5, _⟩ := init_fields _ _ a' (by decide) hi
  refine ⟨a', m, hm, ?_, ?_⟩
  · rw [f4]
    decide
  · rw [f5]
    intro he
    have := congrArg NRGBA.A he
    exact absurd this (by decide)

/-- C16: for every `Size >= 1` and every padding `p`, with `pad` the pixel
padding after `init`, `[mn, mx)` the drawable region of `alignCenter` and
`bs = (mx - mn) / 5`, the five blocks `[mn + j*bs, mn + (j+1)*bs)` cover exactly
`[mn, mn + 5*bs)`, which lies in `[mn, mx)`; the leftover `mx - (mn + 5*bs)` is
0 or 1, and it is 1 exactly when `(Size - 2*pad) mod 5` is odd. -/
theorem C16_block_grid_slack (size p : Int) (h : 1 ≤ size) :
    let pad := (if p < 0 then 0 else if p > 10 then 10 else p) * Int.tdiv size 100
    let mn := (alignCenter size pad).Min.X
    let mx := (alignCenter size pad).Max.X
    let bs := Int.tdiv (alignCenter size pad).Dx nblock
    (alignCenter size pad).Min.Y = mn ∧ (alignCenter size pad).Max.Y = mx ∧
    0 ≤ bs ∧
    (∀ x, (∃ j : Fin nblock, mn + j.val * bs ≤ x ∧ x < mn + (j.val + 1) * bs) ↔
      (mn ≤ x ∧ x < mn + 5 * bs)) ∧
    mn + 5 * bs ≤ mx ∧
    (mx - (mn + 5 * bs) = 0 ∨ mx - (mn + 5 * bs) = 1) ∧
    (mx - (mn + 5 * bs) = 1 ↔ (size - 2 * pad) % 5 % 2 = 1) := by
  intro pad mn mx bs
  obtain ⟨hp0, hp1⟩ := clamp_padding_bounds size p h
  have hpad : pad = (if p < 0 then 0 else if p > 10 then 10 else p) * Int.tdiv size 100 := rfl
  rw [← hpad] at hp0 hp1
  have hR := alignCenter_eq size pad hp1
  obtain ⟨g1, g2, g3⟩ := geometry_eq size pad hp1
  obtain ⟨k1, k2, k3, k4⟩ := geometry_facts size pad hp0 hp1
  have hmn : mn = pad + (size - 2 * pad) % 5 / 2 := g1
  have hmx : mx = size - (pad + (size - 2 * pad) % 5 / 2) := by
    show (alignCenter size pad).Max.X = _
    rw [hR]
  have hbs : bs = (size - 2 * pad) / 5 := by
    show Int.tdiv (alignCenter size pad).Dx nblock = _
    rw [g3, k1]
  have hmy : (alignCenter size pad).Min.Y = mn := by rw [g2, hmn]
  have hxy : (alignCenter size pad).Max.Y = mx := by rw [hR, hmx]
  have hbs0 : 0 ≤ bs := by rw [hbs]; exact k2
  refine ⟨hmy, hxy, hbs0, fun x => ⟨?_, ?_⟩, by omega, by omega, by omega⟩
  · rintro ⟨j, h1, h2⟩
    have hj : (j.val : Int) < 5 := by exact_mod_cast j.isLt
    have hj0 : (0 : Int) ≤ j.val := by exact_mod_cast Nat.zero_le _
    have e1 : 0 ≤ (j.val : Int) * bs := Int.mul_nonneg hj0 hbs0
    have e2 : ((j.val : Int) + 1) * bs ≤ 5 * bs := Int.mul_le_mul_of_nonneg_right (by omega) hbs0
    omega
  · rintro ⟨h1, h2⟩
    by_cases c0 : x < mn + 1 * bs
    · exact ⟨⟨0, by decide⟩, by simpa using h1, by simpa using c0⟩
    · by_cases c1 : x < mn + 2 * bs
      · exact ⟨⟨1, by decide⟩, by simpa using (not_lt.mp c0), by simpa using c1⟩
      · by_cases c2 : x < mn + 3 * bs
        · refine ⟨⟨2, by decide⟩, ?_, ?_⟩
          · show mn + ((2 : Nat) : Int) * bs ≤ x
            push_cast
            omega
          · show x < mn + (((2 : Nat) : Int) + 1) * bs
            push_cast
            omega
        · by_cases c3 : x < mn + 4 * bs
          · refine ⟨⟨3, by decide⟩, ?_, ?_⟩
            · show mn + ((3 : Nat) : Int) * bs ≤ x
              push_cast
              omega
            · show x < mn + (((3 : Nat) : Int) + 1) * bs
              push_cast
              omega
          · refine ⟨⟨4, by decide⟩, ?_, ?_⟩
            · show mn + ((4 : Nat) : Int) * bs ≤ x
              push_cast
              omega
            · show x < mn + (((4 : Nat) : Int) + 1) * bs
              push_cast
              omega

/-- Witness of C16: size 23 with padding 10 has the region `[1, 22)`, block
size 4 and a leftover of one pixel. -/
theorem C16_block_grid_slack_witness :
    (alignCenter 23 ((if (10 : Int) < 0 then 0 else if (10 : Int) > 10 then 10 else 10) *
        Int.tdiv 23 100)).Max.X -
      ((alignCenter 23 ((if (10 : Int) < 0 then 0 else if (10 : Int) > 10 then 10 else 10) *
        Int.tdiv 23 100)).Min.X + 5 * Int.tdiv (alignCenter 23
        ((if (10 : Int) < 0 then 0 else if (10 : Int) > 10 then 10 else 10) *
        Int.tdiv 23 100)).Dx nblock) = 1 :=
  (C16_block_grid_slack 23 10 (by decide)).2.2.2.2.2.2.2 (by decide)

/-- C20: for every size from 1 to 99, every text and every colour setting,
`Create` returns the same image (and leaves the same state) for every value of
the padding, the pixel padding after `init` being 0; and for every `Size >= 1`
two paddings with the same value of `clamp(Padding, 0, 10) * (Size / 100)`, the
integer division done first, give the same result. -/
theorem C20_padding_effect (ul : List Byte → List Byte) (a : Avatar) (p1 p2 : Int)
    (h : 1 ≤ a.Size) :
    (a.Size < 100 →
      Avatar.Create ul { a with Padding := p1 } = Avatar.Create ul { a with Padding := p2 } ∧
      ∃ a' m, Avatar.Create ul { a with Padding := p1 } = some (a', some m, none) ∧
        a'.Padding = 0) ∧
    ((if p1 < 0 then 0 else if p1 > 10 then 10 else p1) * Int.tdiv a.Size 100 =
      (if p2 < 0 then 0 else if p2 > 10 then 10 else p2) * Int.tdiv a.Size 100 →
      Avatar.Create ul { a with Padding := p1 } = Avatar.Create ul { a with Padding := p2 }) := by
  have gen : (if p1 < 0 then 0 else if p1 > 10 then 10 else p1) * Int.tdiv a.Size 100 =
      (if p2 < 0 then 0 else if p2 > 10 then 10 else p2) * Int.tdiv a.Size 100 →
      Avatar.Create ul { a with Padding := p1 } = Avatar.Create ul { a with Padding := p2 } := by
    intro he
    apply Create_of_init_eq
    rw [init_eq ul { a with Padding := p1 } h, init_eq ul { a with Padding := p2 } h]
    simp only [he]
  refine ⟨fun hlt => ?_, gen⟩
  have hq : Int.tdiv a.Size 100 = 0 := by
    rw [Int.tdiv_eq_ediv (by omega) (by omega)]
    omega
  refine ⟨gen (by rw [hq]; simp), ?_⟩
  obtain ⟨a', m, hi, hm, _⟩ := Create_spec ul { a with Padding := p1 } h
  obtain ⟨_, _, f3, _⟩ := init_fields ul { a with Padding := p1 } a' h hi
  refine ⟨a', m, hm, ?_⟩
  rw [f3]
  show _ * Int.tdiv a.Size 100 = 0
  rw [hq]
  simp

/-- Witness of C20: with size 50 the paddings 0 and 10 give the same result. -/
theorem C20_padding_effect_witness :
    Avatar.Create (fun s => s) ⟨[0x61], 50, 0, ⟨0, 0, 0, 0⟩, ⟨0, 0, 0, 0⟩, palette.zero⟩ =
      Avatar.Create (fun s => s) ⟨[0x61], 50, 10, ⟨0, 0, 0, 0⟩, ⟨0, 0, 0, 0⟩, palette.zero⟩ :=
  ((C20_padding_effect (fun s => s) ⟨[0x61], 50, 7, ⟨0, 0, 0, 0⟩, ⟨0, 0, 0, 0⟩, palette.zero⟩
    0 10 (by decide)).1 (by decide)).1



/-- The pixel padding that `init` leaves is at most ten times `Size / 100`. -/
theorem clamp_padding_le (size p : Int) (h : 1 ≤ size) :
    (if p < 0 then 0 else if p > 10 then 10 else p) * Int.tdiv size 100 ≤
      10 * (size / 100) := by
  rw [Int.tdiv_eq_ediv (by omega) (by omega)]
  have hq0 : 0 ≤ size / 100 := Int.ediv_nonneg (by omega) (by omega)
  apply Int.mul_le_mul_of_nonneg_right _ hq0
  split_ifs <;> omega

/-- A point lies in block `j` of a row of blocks of positive size exactly when
`j` is its quotient by the block size. -/
theorem block_iff_div (x bs j : Int) (h : 0 < bs) :
    (j * bs ≤ x ∧ x < (j + 1) * bs) ↔ j = x / bs := by
  constructor
  · rintro ⟨h1, h2⟩
    have a1 : j ≤ x / bs := (Int.le_ediv_iff_mul_le h).mpr h1
    have a2 : x / bs < j + 1 := (Int.ediv_lt_iff_lt_mul h).mpr h2
    omega
  · intro e
    subst e
    exact ⟨(Int.le_ediv_iff_mul_le h).mp le_rfl, (Int.ediv_lt_iff_lt_mul h).mp (by omega)⟩

/-- The mirror image of block `j` is block `4 - j` when the five blocks fill
the drawable region. -/
theorem mirror_block (size mn bs x : Int) (j j2 : Fin nblock) (hj : j2.val = 4 - j.val)
    (hfill : mn + 5 * bs = size - mn)
    (h : mn + j.val * bs ≤ x ∧ x < mn + (j.val + 1) * bs) :
    mn + j2.val * bs ≤ size - 1 - x ∧ size - 1 - x < mn + (j2.val + 1) * bs := by
  have hn : nblock = 5 := rfl
  have hlt := j.isLt
  have e : (j2.val : Int) = 4 - (j.val : Int) := by
    rw [hj]
    omega
  rw [e]
  have e1 : (4 - (j.val : Int)) * bs = 4 * bs - (j.val : Int) * bs := by ring
  have e2 : (4 - (j.val : Int) + 1) * bs = 5 * bs - (j.val : Int) * bs := by ring
  have e3 : ((j.val : Int) + 1) * bs = (j.val : Int) * bs + bs := by ring
  rw [e1, e2]
  rw [e3] at h
  omega

/-- C18: for every padding the block size computed by `Create` is at least 1
if and only if `Size >= 5`.  For a size from 1 to 4 `Create` succeeds and every
pixel of the image has the background colour, whatever the text; for every
`Size >= 5` the square of each true palette cell holds a pixel of the canvas,
which has the foreground colour. -/
theorem C18_minimum_size (ul : List Byte → List Byte) (a : Avatar) (h : 1 ≤ a.Size) :
    ∃ a' m, a.init ul = some (a', none) ∧ a.Create ul = some (a', some m, none) ∧
      let mn := (alignCenter a'.Size a'.Padding).Min.X
      let bs := Int.tdiv (alignCenter a'.Size a'.Padding).Dx nblock
      (1 ≤ bs ↔ 5 ≤ a.Size) ∧
      (a.Size ≤ 4 → ∀ x y, 0 ≤ x → x < a.Size → 0 ≤ y → y < a.Size →
        m.NRGBAAt x y = a'.BGColor) ∧
      (5 ≤ a.Size → ∀ i j : Fin nblock, a'.palette.cell i j = true →
        ∃ x y, 0 ≤ x ∧ x < a.Size ∧ 0 ≤ y ∧ y < a.Size ∧
          mn + j.val * bs ≤ x ∧ x < mn + (j.val + 1) * bs ∧
          mn + i.val * bs ≤ y ∧ y < mn + (i.val + 1) * bs ∧
          m.NRGBAAt x y = a'.Color) := by
  obtain ⟨a', m, hi, hm, hsz, hp0, hp1, _, hpix⟩ := Create_spec ul a h
  obtain ⟨_, _, f3, _⟩ := init_fields ul a a' h hi
  have hple := clamp_padding_le a.Size a.Padding h
  rw [← f3] at hple
  obtain ⟨g1, _, g3⟩ := geometry_eq a.Size a'.Padding hp1
  obtain ⟨k1, k2, k3, k4⟩ := geometry_facts a.Size a'.Padding hp0 hp1
  refine ⟨a', m, hi, hm, ?_⟩
  intro mn bs
  have hmn : mn = a'.Padding + (a.Size - 2 * a'.Padding) % 5 / 2 := by
    show (alignCenter a'.Size a'.Padding).Min.X = _
    rw [hsz, g1]
  have hbs : bs = (a.Size - 2 * (a'.Padding + (a.Size - 2 * a'.Padding) % 5 / 2)) / 5 := by
    show Int.tdiv (alignCenter a'.Size a'.Padding).Dx nblock = _
    rw [hsz, g3]
  clear_value mn bs
  subst hmn hbs
  have hn : nblock = 5 := rfl
  generalize hmn : a'.Padding + (a.Size - 2 * a'.Padding) % 5 / 2 = mn at *
  generalize hbs : (a.Size - 2 * mn) / 5 = bs at *
  refine ⟨by omega, fun h4 x y hx0 hx1 hy0 hy1 => ?_, fun h5 i j hcell => ?_⟩
  · rw [hpix x y hx0 hx1 hy0 hy1, if_neg]
    rintro ⟨i, j, _, b1, b2, _⟩
    have hz : bs = 0 := by omega
    rw [hz] at b1 b2
    simp only [mul_zero, add_zero] at b1 b2
    omega
  · have hj := j.isLt
    have hi5 := i.isLt
    have hjle : (j.val : Int) ≤ 4 := by omega
    have hile : (i.val : Int) ≤ 4 := by omega
    have hbs0 : 0 ≤ bs := by omega
    have hbs1 : 1 ≤ bs := by omega
    have ej : (j.val : Int) * bs ≤ 4 * bs := Int.mul_le_mul_of_nonneg_right hjle hbs0
    have ei : (i.val : Int) * bs ≤ 4 * bs := Int.mul_le_mul_of_nonneg_right hile hbs0
    have ej0 : 0 ≤ (j.val : Int) * bs := Int.mul_nonneg (by omega) hbs0
    have ei0 : 0 ≤ (i.val : Int) * bs := Int.mul_nonneg (by omega) hbs0
    have e3 : ((j.val : Int) + 1) * bs = (j.val : Int) * bs + bs := by ring
    have e4 : ((i.val : Int) + 1) * bs = (i.val : Int) * bs + bs := by ring
    have hx0 : 0 ≤ mn + (j.val : Int) * bs := by omega
    have hx1 : mn + (j.val : Int) * bs < a.Size := by omega
    have hy0 : 0 ≤ mn + (i.val : Int) * bs := by omega
    have hy1 : mn + (i.val : Int) * bs < a.Size := by omega
    refine ⟨mn + j.val * bs, mn + i.val * bs, hx0, hx1, hy0, hy1, le_rfl, by omega, le_rfl,
      by omega, ?_⟩
    rw [hpix _ _ hx0 hx1 hy0 hy1, if_pos]
    exact ⟨i, j, hcell, le_rfl, by omega, le_rfl, by omega⟩

/-- Witness of C18: the text "sometext" with size 4 and with size 5. -/
theorem C18_minimum_size_witness :
    (∃ a' m, Avatar.Create (fun s => s) ⟨[0x73, 0x6f, 0x6d, 0x65, 0x74, 0x65, 0x78, 0x74], 4, 10,
        ⟨0, 0, 0, 0⟩, ⟨0, 0, 0, 0⟩, palette.zero⟩ = some (a', some m, none) ∧
      ∀ x y, 0 ≤ x → x < 4 → 0 ≤ y → y < 4 → m.NRGBAAt x y = a'.BGColor) ∧
    (∃ a' m, Avatar.Create (fun s => s) ⟨[0x73, 0x6f, 0x6d, 0x65, 0x74, 0x65, 0x78, 0x74], 5, 10,
        ⟨0, 0, 0, 0⟩, ⟨0, 0, 0, 0⟩, palette.zero⟩ = some (a', some m, none) ∧
      (1 ≤ Int.tdiv (alignCenter a'.Size a'.Padding).Dx nblock ↔ (5 : Int) ≤ 5)) :=
  ⟨(let ⟨a', m, _, h2, _, h4, _⟩ := C18_minimum_size (fun s => s)
      ⟨[0x73, 0x6f, 0x6d, 0x65, 0x74, 0x65, 0x78, 0x74], 4, 10, ⟨0, 0, 0, 0⟩, ⟨0, 0, 0, 0⟩,
        palette.zero⟩ (by decide)
    ⟨a', m, h2, h4 (by decide)⟩),
   (let ⟨a', m, _, h2, h3, _⟩ := C18_minimum_size (fun s => s)
      ⟨[0x73, 0x6f, 0x6d, 0x65, 0x74, 0x65, 0x78, 0x74], 5, 10, ⟨0, 0, 0, 0⟩, ⟨0, 0, 0, 0⟩,
        palette.zero⟩ (by decide)
    ⟨a', m, h2, h3⟩)⟩

/-- C19: for every text, colour setting, `Size >= 1` and padding such that
`(Size - 2*pad) mod 5` is even, `pad` the pixel padding after `init`, the image
returned by `Create` is horizontally mirror-symmetric:
`pixel(x, y) = pixel(Size - 1 - x, y)` for all `0 <= x, y < Size`. -/
theorem C19_mirror_symmetry (ul : List Byte → List Byte) (a : Avatar) (h : 1 ≤ a.Size) :
    ∃ a' m, a.init ul = some (a', none) ∧ a.Create ul = some (a', some m, none) ∧
      ((a.Size - 2 * a'.Padding) % 5 % 2 = 0 →
        ∀ x y, 0 ≤ x → x < a.Size → 0 ≤ y → y < a.Size →
          m.NRGBAAt x y = m.NRGBAAt (a.Size - 1 - x) y) := by
  obtain ⟨a', m, hi, hm, hsz, hp0, hp1, _, hpix⟩ := Create_spec ul a h
  obtain ⟨k1, k2, k3, k4⟩ := geometry_facts a.Size a'.Padding hp0 hp1
  refine ⟨a', m, hi, hm, fun heven x y hx0 hx1 hy0 hy1 => ?_⟩
  have hn : nblock = 5 := rfl
  generalize hmn : a'.Padding + (a.Size - 2 * a'.Padding) % 5 / 2 = mn at hpix k1 k3 k4
  generalize hbs : (a.Size - 2 * mn) / 5 = bs at hpix k1
  have hfill : mn + 5 * bs = a.Size - mn := by omega
  rw [hpix x y hx0 hx1 hy0 hy1, hpix (a.Size - 1 - x) y (by omega) (by omega) hy0 hy1]
  congr 1
  apply propext
  constructor
  · rintro ⟨i, j, hcell, b1, b2, b3, b4⟩
    have hj := j.isLt
    refine ⟨i, ⟨4 - j.val, by omega⟩, ?_, ?_⟩
    · rw [init_palette_symm ul a a' h hi i j ⟨4 - j.val, by omega⟩ rfl]
      exact hcell
    · obtain ⟨m1, m2⟩ := mirror_block a.Size mn bs x j ⟨4 - j.val, by omega⟩ rfl hfill ⟨b1, b2⟩
      exact ⟨m1, m2, b3, b4⟩
  · rintro ⟨i, j, hcell, b1, b2, b3, b4⟩
    have hj := j.isLt
    refine ⟨i, ⟨4 - j.val, by omega⟩, ?_, ?_⟩
    · rw [init_palette_symm ul a a' h hi i j ⟨4 - j.val, by omega⟩ rfl]
      exact hcell
    · obtain ⟨m1, m2⟩ := mirror_block a.Size mn bs (a.Size - 1 - x) j ⟨4 - j.val, by omega⟩ rfl
        hfill ⟨b1, b2⟩
      have e : a.Size - 1 - (a.Size - 1 - x) = x := by ring
      rw [e] at m1 m2
      exact ⟨m1, m2, b3, b4⟩

/-- Witness of C19: the text "sometext" with size 25 and padding 0. -/
theorem C19_mirror_symmetry_witness :
    ∃ a' m, Avatar.Create (fun s => s) ⟨[0x73, 0x6f, 0x6d, 0x65, 0x74, 0x65, 0x78, 0x74], 25, 0,
        ⟨0, 0, 0, 0⟩, ⟨0, 0, 0, 0⟩, palette.zero⟩ = some (a', some m, none) ∧
      ∀ x y, 0 ≤ x → x < 25 → 0 ≤ y → y < 25 → m.NRGBAAt x y = m.NRGBAAt (25 - 1 - x) y :=
  let ⟨a', m, h1, h2, h3⟩ := C19_mirror_symmetry (fun s => s)
    ⟨[0x73, 0x6f, 0x6d, 0x65, 0x74, 0x65, 0x78, 0x74], 25, 0, ⟨0, 0, 0, 0⟩, ⟨0, 0, 0, 0⟩,
      palette.zero⟩ (by decide)
  ⟨a', m, h2, h3 (by
    have hp := (init_fields _ _ a' (by decide) h1).2.2.1
    rw [hp]
    decide)⟩



/-- C11: for every `Size >= 1` that is a multiple of 5, with padding 0, the
drawable region is the full canvas `(0,0)-(Size,Size)`, the block size is
`Size / 5`, and the 25 block squares partition the canvas: a pixel `(x, y)` of
the canvas lies in the square of row `i` and column `j` exactly when
`i = y / blockSize` and `j = x / blockSize`, and it is foreground, painted with
the foreground colour, if that palette cell is true and background, left in the
background colour, if it is false (so, when the two colours differ, it has the
foreground colour if and only if the cell is true). -/
theorem C11_exact_tiling (ul : List Byte → List Byte) (a : Avatar) (h : 1 ≤ a.Size)
    (h5 : a.Size % 5 = 0) (hp : a.Padding = 0) :
    ∃ a' m, a.init ul = some (a', none) ∧ a.Create ul = some (a', some m, none) ∧
      alignCenter a'.Size a'.Padding = ⟨⟨0, 0⟩, ⟨a.Size, a.Size⟩⟩ ∧
      Int.tdiv (alignCenter a'.Size a'.Padding).Dx nblock = a.Size / 5 ∧
      1 ≤ a.Size / 5 ∧
      ∀ x y, 0 ≤ x → x < a.Size → 0 ≤ y → y < a.Size →
        (∃ i j : Fin nblock, (i.val : Int) = y / (a.Size / 5) ∧
          (j.val : Int) = x / (a.Size / 5)) ∧
        (∀ i j : Fin nblock,
          (j.val * (a.Size / 5) ≤ x ∧ x < (j.val + 1) * (a.Size / 5) ∧
           i.val * (a.Size / 5) ≤ y ∧ y < (i.val + 1) * (a.Size / 5)) ↔
          ((i.val : Int) = y / (a.Size / 5) ∧ (j.val : Int) = x / (a.Size / 5))) ∧
        (∀ i j : Fin nblock, (i.val : Int) = y / (a.Size / 5) →
          (j.val : Int) = x / (a.Size / 5) →
          m.NRGBAAt x y = (if a'.palette.cell i j = true then a'.Color else a'.BGColor) ∧
          (a'.Color ≠ a'.BGColor →
            (m.NRGBAAt x y = a'.Color ↔ a'.palette.cell i j = true))) := by
  obtain ⟨a', m, hi, hm, hsz, hp0, hp1, _, hpix⟩ := Create_spec ul a h
  obtain ⟨_, _, f3, _⟩ := init_fields ul a a' h hi
  have hpad : a'.Padding = 0 := by
    rw [f3, hp]
    simp
  rw [hpad] at hpix
  have e0 : (0 : Int) + (a.Size - 2 * 0) % 5 / 2 = 0 := by omega
  have e1 : (a.Size - 2 * 0) / 5 = a.Size / 5 := by simp
  rw [e0, e1] at hpix
  have hbs1 : 1 ≤ a.Size / 5 := by omega
  have hbs0 : 0 < a.Size / 5 := by omega
  have hfill : 5 * (a.Size / 5) = a.Size := by omega
  generalize hbs : a.Size / 5 = bs at *
  have hR : alignCenter a'.Size a'.Padding = ⟨⟨0, 0⟩, ⟨a.Size, a.Size⟩⟩ := by
    rw [hsz, hpad, alignCenter_eq a.Size 0 (by omega)]
    have e2 : (0 : Int) + (a.Size - 2 * 0) % 5 / 2 = 0 := by omega
    rw [e2]
    simp
  have hblk : ∀ (x y : Int) (i j : Fin nblock),
      ((j.val : Int) * bs ≤ x ∧ x < ((j.val : Int) + 1) * bs ∧
        (i.val : Int) * bs ≤ y ∧ y < ((i.val : Int) + 1) * bs) ↔
      ((i.val : Int) = y / bs ∧ (j.val : Int) = x / bs) := by
    intro x y i j
    have bx := block_iff_div x bs j.val hbs0
    have by1 := block_iff_div y bs i.val hbs0
    constructor
    · rintro ⟨b1, b2, b3, b4⟩
      exact ⟨by1.mp ⟨b3, b4⟩, bx.mp ⟨b1, b2⟩⟩
    · rintro ⟨c1, c2⟩
      obtain ⟨b1, b2⟩ := bx.mpr c2
      obtain ⟨b3, b4⟩ := by1.mpr c1
      exact ⟨b1, b2, b3, b4⟩
  refine ⟨a', m, hi, hm, hR, ?_, hbs1, fun x y hx0 hx1 hy0 hy1 => ⟨?_, hblk x y, ?_⟩⟩
  · rw [hR]
    show Int.tdiv (a.Size - 0) 5 = bs
    rw [Int.tdiv_eq_ediv (by omega) (by omega)]
    simpa using hbs
  · have qx0 : 0 ≤ x / bs := Int.ediv_nonneg hx0 (by omega)
    have qy0 : 0 ≤ y / bs := Int.ediv_nonneg hy0 (by omega)
    have qx1 : x / bs < 5 := (Int.ediv_lt_iff_lt_mul hbs0).mpr (by omega)
    have qy1 : y / bs < 5 := (Int.ediv_lt_iff_lt_mul hbs0).mpr (by omega)
    have ty : (y / bs).toNat < nblock := by
      rw [Int.toNat_lt qy0]
      exact_mod_cast qy1
    have tx : (x / bs).toNat < nblock := by
      rw [Int.toNat_lt qx0]
      exact_mod_cast qx1
    refine ⟨⟨(y / bs).toNat, ty⟩, ⟨(x / bs).toNat, tx⟩, ?_, ?_⟩
    · show ((y / bs).toNat : Int) = y / bs
      omega
    · show ((x / bs).toNat : Int) = x / bs
      omega
  · intro i j hiy hjx
    have key : m.NRGBAAt x y =
        (if a'.palette.cell i j = true then a'.Color else a'.BGColor) := ?_
    · refine ⟨key, fun hne => ?_⟩
      rw [key]
      by_cases hcell : a'.palette.cell i j = true
      · simp [hcell]
      · simp only [hcell, if_false]
        exact ⟨fun he => absurd he.symm hne, fun hf => absurd hf (by simp)⟩
    rw [hpix x y hx0 hx1 hy0 hy1]
    have hmine := (hblk x y i j).mpr ⟨hiy, hjx⟩
    by_cases hcell : a'.palette.cell i j = true
    · rw [if_pos hcell, if_pos]
      refine ⟨i, j, hcell, ?_⟩
      simpa using hmine
    · rw [if_neg hcell, if_neg]
      rintro ⟨i2, j2, hc2, b⟩
      have b' : (j2.val : Int) * bs ≤ x ∧ x < ((j2.val : Int) + 1) * bs ∧
          (i2.val : Int) * bs ≤ y ∧ y < ((i2.val : Int) + 1) * bs := by simpa using b
      obtain ⟨c1, c2⟩ := (hblk x y i2 j2).mp b'
      have ei : i2 = i := Fin.ext (by omega)
      have ej : j2 = j := Fin.ext (by omega)
      rw [ei, ej] at hc2
      exact hcell hc2

/-- Witness of C11: the text "sometext" with size 25 and padding 0 has block
size 5. -/
theorem C11_exact_tiling_witness :
    ∃ a' m, Avatar.Create (fun s => s) ⟨[0x73, 0x6f, 0x6d, 0x65, 0x74, 0x65, 0x78, 0x74], 25, 0,
        ⟨0, 0, 0, 0⟩, ⟨0, 0, 0, 0⟩, palette.zero⟩ = some (a', some m, none) ∧
      alignCenter a'.Size a'.Padding = ⟨⟨0, 0⟩, ⟨25, 25⟩⟩ ∧
      Int.tdiv (alignCenter a'.Size a'.Padding).Dx nblock = 5 :=
  let ⟨a', m, _, h2, h3, h4, _⟩ := C11_exact_tiling (fun s => s)
    ⟨[0x73, 0x6f, 0x6d, 0x65, 0x74, 0x65, 0x78, 0x74], 25, 0, ⟨0, 0, 0, 0⟩, ⟨0, 0, 0, 0⟩,
      palette.zero⟩ (by decide) (by decide) rfl
  ⟨a', m, h2, h3, h4⟩



/-- The two loops of `Create` without their accumulators: the image is the
background with, for every true palette cell `(i, j)` in row-major order, the
rectangle from `(x0 + j*bs, y0 + i*bs)` to `(x0 + j*bs + bs, y0 + i*bs + bs)`
filled in the foreground colour, `(x0, y0)` the minimum of the drawable region
and `bs` the block size. -/
theorem Create_blocks (ul : List Byte → List Byte) (a a' : Avatar)
    (hi : a.init ul = some (a', none)) :
    a.Create ul = some (a', some ((List.range nblock).foldl (fun m i =>
      (List.range nblock).foldl (fun m j =>
        if a'.palette.get? i j = some true then
          fillRect m (Rect
            ((alignCenter a'.Size a'.Padding).Min.X +
              (j : Int) * Int.tdiv (alignCenter a'.Size a'.Padding).Dx nblock)
            ((alignCenter a'.Size a'.Padding).Min.Y +
              (i : Int) * Int.tdiv (alignCenter a'.Size a'.Padding).Dx nblock)
            ((alignCenter a'.Size a'.Padding).Min.X +
              (j : Int) * Int.tdiv (alignCenter a'.Size a'.Padding).Dx nblock +
              Int.tdiv (alignCenter a'.Size a'.Padding).Dx nblock)
            ((alignCenter a'.Size a'.Padding).Min.Y +
              (i : Int) * Int.tdiv (alignCenter a'.Size a'.Padding).Dx nblock +
              Int.tdiv (alignCenter a'.Size a'.Padding).Dx nblock)) a'.Color
        else m) m)
      (fillRect (NewNRGBA (Rect 0 0 a'.Size a'.Size)) (Rect 0 0 a'.Size a'.Size) a'.BGColor)),
      none) := by
  generalize hR : alignCenter a'.Size a'.Padding = R
  generalize hbs : Int.tdiv R.Dx nblock = bs
  generalize hm1 : fillRect (NewNRGBA (Rect 0 0 a'.Size a'.Size))
    (Rect 0 0 a'.Size a'.Size) a'.BGColor = m1
  have outer := foldlM_range_inv
    (fun (st : Image × Int) i => do
      let hr := R.Min.X
      let st2 ← (List.range nblock).foldlM (fun (st2 : Image × Int) j => do
        let cell ← a'.palette.get? i j
        let m := if cell then
            fillRect st2.1 (Rect st2.2 st.2 (st2.2 + bs) (st.2 + bs)) a'.Color
          else st2.1
        pure (m, st2.2 + bs)) (st.1, hr)
      pure (st2.1, st.2 + bs))
    (fun i st => st.2 = R.Min.Y + i * bs ∧
      st.1 = (List.range i).foldl (fun m i =>
        (List.range nblock).foldl (fun m j =>
          if a'.palette.get? i j = some true then
            fillRect m (Rect (R.Min.X + (j : Int) * bs) (R.Min.Y + (i : Int) * bs)
              (R.Min.X + (j : Int) * bs + bs) (R.Min.Y + (i : Int) * bs + bs)) a'.Color
          else m) m) m1)
    nblock (m1, R.Min.Y) ⟨by simp, by simp⟩
    (by
      rintro i st hi5 ⟨hvt, hst⟩
      have inner := foldlM_range_inv
        (fun (st2 : Image × Int) j => do
          let cell ← a'.palette.get? i j
          let m := if cell then
              fillRect st2.1 (Rect st2.2 st.2 (st2.2 + bs) (st.2 + bs)) a'.Color
            else st2.1
          pure (m, st2.2 + bs))
        (fun j st2 => st2.2 = R.Min.X + j * bs ∧
          st2.1 = (List.range j).foldl (fun m j =>
            if a'.palette.get? i j = some true then
              fillRect m (Rect (R.Min.X + (j : Int) * bs) (R.Min.Y + (i : Int) * bs)
                (R.Min.X + (j : Int) * bs + bs) (R.Min.Y + (i : Int) * bs + bs)) a'.Color
            else m) st.1)
        nblock (st.1, R.Min.X) ⟨by simp, by simp⟩
        (by
          rintro j st2 hj5 ⟨hhr, hst2⟩
          have hget : a'.palette.get? i j = some (a'.palette.cell ⟨i, hi5⟩ ⟨j, hj5⟩) := by
            simp [palette.get?, hi5, hj5]
          simp only [hget, Option.bind_eq_bind, Option.some_bind, Option.pure_def]
          refine ⟨_, rfl, ?_, ?_⟩
          · simp only [hhr]
            push_cast
            ring
          · rw [List.range_succ j, List.foldl_append, ← hst2]
            simp only [List.foldl_cons, List.foldl_nil, hget, Option.some.injEq, hhr, hvt])
      obtain ⟨s2, hs2, k1, k2⟩ := inner
      refine ⟨(s2.1, st.2 + bs), ?_, ?_, ?_⟩
      · dsimp only
        rw [hs2]
        rfl
      · simp only [hvt]
        push_cast
        ring
      · rw [List.range_succ i, List.foldl_append, ← hst]
        simp only [List.foldl_cons, List.foldl_nil]
        exact k2)
  obtain ⟨s, hs, _, o2⟩ := outer
  unfold Avatar.Create
  simp only [hi, hR, hbs, hm1, hs, Option.map_some', o2]



/-- C17: for every text, size, padding and colour setting `Create` runs
without an index error (the model returns a result, a panic being `none`).
`mixColor` succeeds on the 17-byte slice and reads only its indices 0..14: the
first 15 bytes alone give the same palette.  For `Size >= 1` the rectangles
that `Create` fills are those of the true palette cells `(i, j)`, from
`(hr, vt) = (x0 + j*bs, y0 + i*bs)` to `(hr + bs, vt + bs)`, and each of them
has `0 <= hr, vt`, `hr + bs <= Size` and `vt + bs <= Size`, so that every point
written by `fillRect` lies inside the `Size x Size` buffer. -/
theorem C17_no_index_error (ul : List Byte → List Byte) (a : Avatar) :
    (∃ r, a.Create ul = some r) ∧
    (∀ recipe : List Byte, recipe.length = 17 →
      ∃ p, mixColor recipe = some p ∧ mixColor (recipe.take 15) = some p) ∧
    (1 ≤ a.Size → ∃ a', a.init ul = some (a', none) ∧
      (let x0 := (alignCenter a'.Size a'.Padding).Min.X
       let y0 := (alignCenter a'.Size a'.Padding).Min.Y
       let bs := Int.tdiv (alignCenter a'.Size a'.Padding).Dx nblock
       a.Create ul = some (a', some ((List.range nblock).foldl (fun m i =>
          (List.range nblock).foldl (fun m j =>
            if a'.palette.get? i j = some true then
              fillRect m (Rect (x0 + (j : Int) * bs) (y0 + (i : Int) * bs)
                (x0 + (j : Int) * bs + bs) (y0 + (i : Int) * bs + bs)) a'.Color
            else m) m)
          (fillRect (NewNRGBA (Rect 0 0 a'.Size a'.Size)) (Rect 0 0 a'.Size a'.Size)
            a'.BGColor)), none) ∧
       ∀ i j : Nat, i < nblock → j < nblock →
        0 ≤ x0 + (j : Int) * bs ∧ 0 ≤ y0 + (i : Int) * bs ∧
        x0 + (j : Int) * bs + bs ≤ a.Size ∧ y0 + (i : Int) * bs + bs ≤ a.Size ∧
        ∀ x y, Point.In ⟨x, y⟩ (Rect (x0 + (j : Int) * bs) (y0 + (i : Int) * bs)
            (x0 + (j : Int) * bs + bs) (y0 + (i : Int) * bs + bs)) = true →
          Point.In ⟨x, y⟩ (Rect 0 0 a'.Size a'.Size) = true)) := by
  refine ⟨?_, ?_, ?_⟩
  · by_cases h : 1 ≤ a.Size
    · obtain ⟨a', m, _, hm, _⟩ := Create_spec ul a h
      exact ⟨_, hm⟩
    · exact ⟨_, Create_invalid ul a (by omega)⟩
  · intro recipe hlen
    refine ⟨_, mixColor_eq recipe (by omega), ?_⟩
    rw [mixColor_eq (recipe.take 15) (by simp [hlen])]
    congr 2
    funext r c
    have hn : nblock = 5 := rfl
    have hr := r.isLt
    have hc := c.isLt
    have hk : 3 * r.val + min c.val (4 - c.val) < 15 := by omega
    simp only [List.getD_eq_getElem?_getD, List.getElem?_take, hk, if_true]
  · intro h
    obtain ⟨a', m, hi, hm, hsz, hp0, hp1, _, _⟩ := Create_spec ul a h
    refine ⟨a', hi, ?_⟩
    intro x0 y0 bs
    refine ⟨Create_blocks ul a a' hi, ?_⟩
    obtain ⟨g1, g2, g3⟩ := geometry_eq a.Size a'.Padding hp1
    obtain ⟨k1, k2, k3, k4⟩ := geometry_facts a.Size a'.Padding hp0 hp1
    have hx0 : x0 = a'.Padding + (a.Size - 2 * a'.Padding) % 5 / 2 := by
      show (alignCenter a'.Size a'.Padding).Min.X = _
      rw [hsz, g1]
    have hy0 : y0 = a'.Padding + (a.Size - 2 * a'.Padding) % 5 / 2 := by
      show (alignCenter a'.Size a'.Padding).Min.Y = _
      rw [hsz, g2]
    have hbs : bs = (a.Size - 2 * a'.Padding) / 5 := by
      show Int.tdiv (alignCenter a'.Size a'.Padding).Dx nblock = _
      rw [hsz, g3, k1]
    clear_value x0 y0 bs
    have hn : nblock = 5 := rfl
    intro i j hi5 hj5
    have hbs0 : 0 ≤ bs := by omega
    have hjle : (j : Int) ≤ 4 := by omega
    have hile : (i : Int) ≤ 4 := by omega
    have ej : (j : Int) * bs ≤ 4 * bs := Int.mul_le_mul_of_nonneg_right hjle hbs0
    have ei : (i : Int) * bs ≤ 4 * bs := Int.mul_le_mul_of_nonneg_right hile hbs0
    have ej0 : 0 ≤ (j : Int) * bs := Int.mul_nonneg (by omega) hbs0
    have ei0 : 0 ≤ (i : Int) * bs := Int.mul_nonneg (by omega) hbs0
    have b1 : 0 ≤ x0 + (j : Int) * bs := by omega
    have b2 : 0 ≤ y0 + (i : Int) * bs := by omega
    have b3 : x0 + (j : Int) * bs + bs ≤ a.Size := by omega
    have b4 : y0 + (i : Int) * bs + bs ≤ a.Size := by omega
    refine ⟨b1, b2, b3, b4, fun x y hin => ?_⟩
    rw [Rect_of_le _ _ _ _ (by omega) (by omega), Point.In_iff] at hin
    rw [hsz, Rect_of_le _ _ _ _ (by omega) (by omega), Point.In_iff]
    simp only at hin ⊢
    omega

/-- Witness of C17: the text "sometext" with size 23 and padding 10. -/
theorem C17_no_index_error_witness :
    ∃ a', Avatar.init (fun s => s) ⟨[0x73, 0x6f, 0x6d, 0x65, 0x74, 0x65, 0x78, 0x74], 23, 10,
        ⟨0, 0, 0, 0⟩, ⟨0, 0, 0, 0⟩, palette.zero⟩ = some (a', none) ∧
      ∀ i j : Nat, i < nblock → j < nblock →
        0 ≤ (alignCenter a'.Size a'.Padding).Min.X +
          (j : Int) * Int.tdiv (alignCenter a'.Size a'.Padding).Dx nblock ∧
        0 ≤ (alignCenter a'.Size a'.Padding).Min.Y +
          (i : Int) * Int.tdiv (alignCenter a'.Size a'.Padding).Dx nblock ∧
        (alignCenter a'.Size a'.Padding).Min.X +
          (j : Int) * Int.tdiv (alignCenter a'.Size a'.Padding).Dx nblock +
          Int.tdiv (alignCenter a'.Size a'.Padding).Dx nblock ≤ 23 ∧
        (alignCenter a'.Size a'.Padding).Min.Y +
          (i : Int) * Int.tdiv (alignCenter a'.Size a'.Padding).Dx nblock +
          Int.tdiv (alignCenter a'.Size a'.Padding).Dx nblock ≤ 23 :=
  let ⟨a', h1, _, h3⟩ := (C17_no_index_error (fun s => s)
    ⟨[0x73, 0x6f, 0x6d, 0x65, 0x74, 0x65, 0x78, 0x74], 23, 10, ⟨0, 0, 0, 0⟩, ⟨0, 0, 0, 0⟩,
      palette.zero⟩).2.2 (by decide)
  ⟨a', h1, fun i j hi hj =>
    let ⟨b1, b2, b3, b4, _⟩ := h3 i j hi hj
    ⟨b1, b2, b3, b4⟩⟩



/-- With a size from 1 to 4 every pixel of the image has the background colour. -/
theorem Create_small (ul : List Byte → List Byte) (a : Avatar) (h : 1 ≤ a.Size)
    (h4 : a.Size ≤ 4) :
    ∃ a' m, a.init ul = some (a', none) ∧ a.Create ul = some (a', some m, none) ∧
      ∀ x y, 0 ≤ x → x < a.Size → 0 ≤ y → y < a.Size → m.NRGBAAt x y = a'.BGColor := by
  obtain ⟨a', m, hi, hm, hsz, hp0, hp1, _, hpix⟩ := Create_spec ul a h
  refine ⟨a', m, hi, hm, fun x y hx0 hx1 hy0 hy1 => ?_⟩
  rw [hpix x y hx0 hx1 hy0 hy1, if_neg]
  rintro ⟨i, j, _, b1, b2, _⟩
  have hz : (a.Size - 2 * (a'.Padding + (a.Size - 2 * a'.Padding) % 5 / 2)) / 5 = 0 := by omega
  rw [hz] at b1 b2
  simp only [mul_zero, add_zero] at b1 b2
  omega

/-- C13 (the code at the failing input): for the text "sometext" with size 200
and padding 5 the first `Create` leaves the pixel padding 10 in the field
`Padding`; a second `Create` on the same avatar reads it as a percentage and
leaves 20, and the two images differ at the pixel `(10, 10)`. -/
theorem C13_second_create_differs :
    ∃ a1 m1 a2 m2,
      Avatar.Create (fun s => s) ⟨[0x73, 0x6f, 0x6d, 0x65, 0x74, 0x65, 0x78, 0x74], 200, 5,
        ⟨0, 0, 0, 0⟩, ⟨0, 0, 0, 0⟩, palette.zero⟩ = some (a1, some m1, none) ∧
      Avatar.Create (fun s => s) a1 = some (a2, some m2, none) ∧
      a1.Padding = 10 ∧ a2.Padding = 20 ∧
      m1.NRGBAAt 10 10 ≠ m2.NRGBAAt 10 10 := by
  have hd := sha1_Sum_sometext (fun s => s)
  obtain ⟨a1, m1, hi1, hm1, hsz1, _, _, _, hpix1⟩ := Create_spec (fun s => s)
    ⟨[0x73, 0x6f, 0x6d, 0x65, 0x74, 0x65, 0x78, 0x74], 200, 5, ⟨0, 0, 0, 0⟩, ⟨0, 0, 0, 0⟩,
      palette.zero⟩ (by decide)
  obtain ⟨t1, _, p1, bg1, c1, pal1⟩ := init_fields _ _ a1 (by decide) hi1
  simp only [hd] at c1 pal1
  have hs1 : a1.Size = 200 := hsz1
  have hp1 : a1.Padding = 10 := by rw [p1]; decide
  have hbg1 : a1.BGColor = DefaultBG := by rw [bg1]; rfl
  have hc1 : a1.Color = ⟨210, 42, 21, 0xff⟩ := by rw [c1]; rfl
  have h1 : 1 ≤ a1.Size := by rw [hs1]; decide
  obtain ⟨a2, m2, hi2, hm2, _, _, _, _, hpix2⟩ := Create_spec (fun s => s) a1 h1
  obtain ⟨_, _, p2, bg2, _, _⟩ := init_fields _ _ a2 h1 hi2
  have hp2 : a2.Padding = 20 := by rw [p2, hp1, hs1]; decide
  have hbg2 : a2.BGColor = DefaultBG := by rw [bg2, hbg1]; rfl
  refine ⟨a1, m1, a2, m2, hm1, hm2, hp1, hp2, ?_⟩
  have e1 : m1.NRGBAAt 10 10 = a1.Color := by
    rw [hpix1 10 10 (by decide) (by decide) (by decide) (by decide), if_pos]
    refine ⟨⟨0, by decide⟩, ⟨0, by decide⟩, ?_, ?_⟩
    · rw [pal1]
      rfl
    · rw [hp1]
      decide
  have e2 : m2.NRGBAAt 10 10 = a2.BGColor := by
    rw [hpix2 10 10 (by decide) (by rw [hs1]; decide) (by decide) (by rw [hs1]; decide), if_neg]
    rintro ⟨i, j, _, b1, _⟩
    rw [hp2, hs1] at b1
    have : (0 : Int) ≤ (j.val : Int) * ((200 - 2 * (20 + (200 - 2 * 20) % 5 / 2)) / 5) :=
      Int.mul_nonneg (by omega) (by decide)
    omega
  rw [e1, e2, hc1, hbg2]
  decide

/-- The value that `parseColor` returns for "000000". -/
theorem parseColor_black :
    parseColor [0x30, 0x30, 0x30, 0x30, 0x30, 0x30] = some (⟨0, 0, 0, 255⟩, none) := by
  rw [parseColor_six]
  rfl

/-- C15 (as amended): black chosen through the command line is kept, not
treated as unset: `parseColor` returns `NRGBA{0, 0, 0, 255}` for "000000" and
the zero value `NRGBA{0, 0, 0, 0}` for the empty string only, and for every
text and `Size >= 1` `Create` leaves a `Color` or `BGColor` of
`NRGBA{0, 0, 0, 255}` as it is and paints with it: the foreground, resp. the
background, is black, not the colour of the digest, resp. `DefaultBG`. -/
theorem C15_black_is_kept (ul : List Byte → List Byte) (a : Avatar) (h : 1 ≤ a.Size) :
    parseColor [0x30, 0x30, 0x30, 0x30, 0x30, 0x30] = some (⟨0, 0, 0, 255⟩, none) ∧
    (∀ c, parseColor c = some (⟨0, 0, 0, 0⟩, none) → c = []) ∧
    ∃ a' m, a.Create ul = some (a', some m, none) ∧
      (a.Color = ⟨0, 0, 0, 255⟩ → a'.Color = ⟨0, 0, 0, 255⟩) ∧
      (a.BGColor = ⟨0, 0, 0, 255⟩ → a'.BGColor = ⟨0, 0, 0, 255⟩) ∧
      let mn := a'.Padding + (a.Size - 2 * a'.Padding) % 5 / 2
      let bs := (a.Size - 2 * mn) / 5
      ∀ x y, 0 ≤ x → x < a.Size → 0 ≤ y → y < a.Size →
        m.NRGBAAt x y =
          if ∃ i j : Fin nblock, a'.palette.cell i j = true ∧
            mn + j.val * bs ≤ x ∧ x < mn + (j.val + 1) * bs ∧
            mn + i.val * bs ≤ y ∧ y < mn + (i.val + 1) * bs
          then a'.Color else a'.BGColor := by
  refine ⟨parseColor_black, ?_, ?_⟩
  · intro c hc
    by_contra hne
    by_cases h6 : c.length = 6
    · match c, h6 with
      | [c0, c1, c2, c3, c4, c5], _ =>
        rw [parseColor_six] at hc
        cases h0 : hexValue c0 <;> cases h1 : hexValue c1 <;> cases h2 : hexValue c2 <;>
          cases h3 : hexValue c3 <;> cases h4 : hexValue c4 <;> cases h5 : hexValue c5 <;>
          simp only [h0, h1, h2, h3, h4, h5] at hc <;>
          first
          | exact absurd (congrArg (fun r => r.map (fun q => q.2)) hc) (by decide)
          | exact absurd (show (255 : Byte) = 0 from
              congrArg (fun r => (r.map (fun q => q.1.A)).getD 0) hc) (by decide)
    · rw [parseColor_length c hne h6] at hc
      exact absurd (congrArg (fun r => r.map (fun q => q.2)) hc) (by decide)
  · obtain ⟨a', m, hi, hm, _, _, _, _, hpix⟩ := Create_spec ul a h
    obtain ⟨_, _, _, f4, f5, _⟩ := init_fields ul a a' h hi
    refine ⟨a', m, hm, fun hc => ?_, fun hb => ?_, hpix⟩
    · rw [f5, if_neg (by rw [hc]; decide), hc]
    · rw [f4, if_neg (by rw [hb]; decide), hb]

/-- Witness of C15: a black foreground for the text "a" with size 25. -/
theorem C15_black_is_kept_witness :
    ∃ a' m, Avatar.Create (fun s => s)
        ⟨[0x61], 25, 0, ⟨0, 0, 0, 0⟩, ⟨0, 0, 0, 255⟩, palette.zero⟩ = some (a', some m, none) ∧
      a'.Color = ⟨0, 0, 0, 255⟩ :=
  let ⟨a', m, h1, h2, _⟩ := (C15_black_is_kept (fun s => s)
    ⟨[0x61], 25, 0, ⟨0, 0, 0, 0⟩, ⟨0, 0, 0, 255⟩, palette.zero⟩ (by decide)).2.2
  ⟨a', m, h1, h2 rfl⟩

/-- Counterexample to C15 as stated: on the command line with the text "a" and
size 1, the background "000000" gives an image whose pixel `(0, 0)` is black,
and the omitted background gives an image whose pixel `(0, 0)` is `DefaultBG`. -/
theorem C15_counterexample :
    ∃ a1 m1 a2 m2,
      main (fun s => s) [0x61] 1 0 [0x30, 0x30, 0x30, 0x30, 0x30, 0x30] [] =
        some (Outcome.created a1 m1) ∧
      main (fun s => s) [0x61] 1 0 [] [] = some (Outcome.created a2 m2) ∧
      m1.NRGBAAt 0 0 = ⟨0, 0, 0, 255⟩ ∧ m2.NRGBAAt 0 0 = ⟨0xed, 0xed, 0xed, 0xff⟩ ∧
      m1.NRGBAAt 0 0 ≠ m2.NRGBAAt 0 0 := by
  obtain ⟨a1, m1, hi1, hm1, hpx1⟩ := Create_small (fun s => s)
    ⟨[0x61], 1, 0, ⟨0, 0, 0, 255⟩, ⟨0, 0, 0, 0⟩, palette.zero⟩ (by decide) (by decide)
  obtain ⟨a2, m2, hi2, hm2, hpx2⟩ := Create_small (fun s => s)
    ⟨[0x61], 1, 0, ⟨0, 0, 0, 0⟩, ⟨0, 0, 0, 0⟩, palette.zero⟩ (by decide) (by decide)
  obtain ⟨_, _, _, bg1, _⟩ := init_fields _ _ a1 (by decide) hi1
  obtain ⟨_, _, _, bg2, _⟩ := init_fields _ _ a2 (by decide) hi2
  have e1 : m1.NRGBAAt 0 0 = ⟨0, 0, 0, 255⟩ := by
    rw [hpx1 0 0 (by decide) (by decide) (by decide) (by decide), bg1]
    decide
  have e2 : m2.NRGBAAt 0 0 = ⟨0xed, 0xed, 0xed, 0xff⟩ := by
    rw [hpx2 0 0 (by decide) (by decide) (by decide) (by decide), bg2]
    decide
  refine ⟨a1, m1, a2, m2, ?_, ?_, e1, e2, ?_⟩
  · exact main_created _ _ _ _ _ _ (by decide) _ _ a1 m1 parseColor_black rfl hm1
  · exact main_created _ _ _ _ _ _ (by decide) _ _ a2 m2 rfl rfl hm2
  · rw [e1, e2]
    decide

end Identicon
